import Mathlib

/-!
Verification of the StakeYourGoal goal-staking contract
(`contracts/src/StakeYourGoal.sol`) and of the GoalBadgeNFT soulbound
badge contract of the same repository.

The contracts are embedded as pure state-transition functions: every
external entry point becomes a function from a pre-state and the call
arguments to `Option (state × events)`, where `none` models a reverted
call (no state change at all) and the event list models the Solidity
events of a successful call.  Machine integers are modelled as `Nat`
with the source's casts written explicitly (`% 2^96` for the `uint96`
stake cast, `% 2^64` for the `uint64` timestamp cast) and with
Solidity 0.8 checked arithmetic rendered as explicit bounds guards that
revert (`none`) on overflow or underflow.  The outcomes of the external
calls made by the contract (the stake-withdrawal transfer, the charity
donation transfer, the try/catch badge mint) are supplied as explicit
parameters of the corresponding operation, since they are decided by
the environment.
-/

namespace StakeYourGoal

/-- Account addresses; `0` stands for the zero address. -/
abbrev Addr := Nat

/-- Constant `2^64`, the modulus of Solidity `uint64`. -/
def U64 : Nat := 2 ^ 64

/-- Constant `2^96`, the modulus of Solidity `uint96`. -/
def U96 : Nat := 2 ^ 96

/-- Constant `2^256`, the modulus of Solidity `uint256`. -/
def U256 : Nat := 2 ^ 256

/-- Solidity `struct Goal` of `StakeYourGoal.sol` (status: 0=active, 1=completed,
2=failed, 3=disputed). -/
structure Goal where
  user : Addr
  stakeAmount : Nat
  deadline : Nat
  createdAt : Nat
  aiScore : Nat
  status : Nat
  category : Nat
  description : String
  proofURI : String
deriving Repr, DecidableEq

/-- The all-zero record a Solidity mapping yields for an unset key. -/
def defaultGoal : Goal :=
  { user := 0, stakeAmount := 0, deadline := 0, createdAt := 0, aiScore := 0,
    status := 0, category := 0, description := "", proofURI := "" }

/-- Solidity `struct Vote` of `StakeYourGoal.sol`; the `hasVoted` mapping is a
boolean-valued function on addresses. -/
structure VoteRec where
  yesVotes : Nat
  noVotes : Nat
  hasVoted : Addr → Bool
  resolved : Bool
  passed : Bool

/-- The all-zero vote record of an unset mapping key. -/
def defaultVote : VoteRec :=
  { yesVotes := 0, noVotes := 0, hasVoted := fun _ => false,
    resolved := false, passed := false }

/-- The Solidity events emitted by `StakeYourGoal.sol`.  `goalCreated`,
`stakeWithdrawn` and `charityDonation` double as the records of value
entering and leaving the contract: a deposit of `msg.value` at creation,
a successful transfer to the goal owner at withdrawal, and a successful
transfer to the charity address at failure resolution. -/
inductive Event where
  | goalCreated (goalId : Nat) (user : Addr) (stakeAmount deadline category : Nat)
      (description : String)
  | proofSubmitted (goalId : Nat) (user : Addr) (proofURI : String)
  | aiScoredProof (goalId score : Nat) (reason : String)
  | voteStarted (goalId votingDeadline : Nat)
  | voteCast (goalId : Nat) (voter : Addr) (support : Bool)
  | voteResolved (goalId : Nat) (passed : Bool) (yesVotes noVotes : Nat)
  | goalResolved (goalId status : Nat)
  | stakeWithdrawn (user : Addr) (amount : Nat)
  | goalVerified (goalId : Nat) (verifier : Addr) (score : Nat) (passed : Bool)
  | badgeMintedForGoal (goalId : Nat) (user : Addr) (tokenId : Nat)
  | charityDonation (goalId : Nat) (charity : Addr) (amount : Nat)
deriving Repr, DecidableEq

/-- The storage of `StakeYourGoal.sol`: goal and vote mappings, the
configuration scalars, the streak mappings and the `Ownable` owner. -/
structure LedgerState where
  goalCounter : Nat
  goals : Nat → Goal
  userGoals : Addr → List Nat
  votes : Nat → VoteRec
  minimumStake : Nat
  votingPeriod : Nat
  aiVerifier : Addr
  totalStaked : Nat
  charityAddress : Addr
  charityBasisPoints : Nat
  userStreaks : Addr → Nat
  userHighestStreak : Addr → Nat
  badgeMinter : Addr
  owner : Addr

/-- The post-constructor state: `minimumStake = 0.01 ether`,
`votingPeriod = 7 days`, `charityBasisPoints = 5000`, deployer is both
`Ownable` owner and initial `aiVerifier`, charity unset. -/
def initState (deployer badgeAddr : Addr) : LedgerState :=
  { goalCounter := 0, goals := fun _ => defaultGoal,
    userGoals := fun _ => [], votes := fun _ => defaultVote,
    minimumStake := 10 ^ 16, votingPeriod := 604800,
    aiVerifier := deployer, totalStaked := 0,
    charityAddress := 0, charityBasisPoints := 5000,
    userStreaks := fun _ => 0, userHighestStreak := fun _ => 0,
    badgeMinter := badgeAddr, owner := deployer }

/-- Entry point `createGoal(deadline, category, description)` with `msg.value = value`
and `block.timestamp = now`.  The stake is recorded through the
`uint96(msg.value)` truncating cast; `totalStaked` takes the full value. -/
def createGoal (s : LedgerState) (sender : Addr) (value now deadline category : Nat)
    (description : String) : Option (LedgerState × List Event) :=
  if s.minimumStake ≤ value then
    if now < deadline then
      if description ≠ "" then
        if category ≤ 5 then
          if s.goalCounter + 1 < U256 ∧ s.totalStaked + value < U256 then
            let goalId := s.goalCounter
            let g : Goal :=
              { user := sender, stakeAmount := value % U96, deadline := deadline,
                createdAt := now % U64, aiScore := 0, status := 0,
                category := category, description := description, proofURI := "" }
            some ({ s with goalCounter := goalId + 1,
                           goals := Function.update s.goals goalId g,
                           userGoals := Function.update s.userGoals sender
                             (s.userGoals sender ++ [goalId]),
                           totalStaked := s.totalStaked + value },
                  [Event.goalCreated goalId sender value deadline category description])
          else none
        else none
      else none
    else none
  else none

/-- Entry point `submitProof(goalId, proofURI)`; the grace-window check uses the
checked `uint64` sum `goal.deadline + 1 days`. -/
def submitProof (s : LedgerState) (sender : Addr) (now goalId : Nat)
    (proofURI : String) : Option (LedgerState × List Event) :=
  if goalId < s.goalCounter then
    let g := s.goals goalId
    if g.user = sender then
      if g.status = 0 then
        if g.deadline + 86400 < U64 then
          if now ≤ g.deadline + 86400 then
            let s1 : LedgerState :=
              { s with goals := Function.update s.goals goalId ({ g with proofURI := proofURI }) }
            some (s1, [Event.proofSubmitted goalId sender proofURI])
          else none
        else none
      else none
    else none
  else none

/-- Helper `_onGoalCompleted`: increment the owner streak (checked `uint64`),
raise the highest streak, and attempt the badge mint when a badge
contract is configured.  `mintResult` is the environment's outcome of
the external `mintBadge` try/catch: `some tokenId` on success, `none`
on a caught revert (which, per the source, does not abort completion). -/
def onGoalCompleted (s : LedgerState) (goalId : Nat) (mintResult : Option Nat) :
    Option (LedgerState × List Event) :=
  let u := (s.goals goalId).user
  if s.userStreaks u + 1 < U64 then
    let current := s.userStreaks u + 1
    let s1 : LedgerState :=
      { s with userStreaks := Function.update s.userStreaks u current,
               userHighestStreak :=
                 if s.userHighestStreak u < current then
                   Function.update s.userHighestStreak u current
                 else s.userHighestStreak }
    if s.badgeMinter ≠ 0 then
      match mintResult with
      | some tokenId => some (s1, [Event.badgeMintedForGoal goalId u tokenId])
      | none => some (s1, [])
    else some (s1, [])
  else none

/-- Helper `_onGoalFailed`: reset the owner streak to 0 and route the charity
share of the stake.  `sendOk` is the environment's outcome of the
low-level charity transfer; a failed transfer is ignored (no revert, no
donation event).  The goal's `stakeAmount` is left untouched. -/
def onGoalFailed (s : LedgerState) (goalId : Nat) (sendOk : Bool) :
    Option (LedgerState × List Event) :=
  let g := s.goals goalId
  let s1 : LedgerState := { s with userStreaks := Function.update s.userStreaks g.user 0 }
  if s.charityAddress ≠ 0 ∧ 0 < g.stakeAmount then
    if g.stakeAmount * s.charityBasisPoints < U256 then
      let charityAmount := g.stakeAmount * s.charityBasisPoints / 10000
      if 0 < charityAmount then
        if sendOk then
          some (s1, [Event.charityDonation goalId s.charityAddress charityAmount])
        else some (s1, [])
      else some (s1, [])
    else none
  else some (s1, [])

/-- Entry point `setAIScore(goalId, score)` with `block.timestamp = now`, restricted
to the AI verifier.  `score ≥ 75` resolves to completed, `score < 40`
to failed, the mid band only emits `VoteStarted(goalId, now + votingPeriod)`
(a checked `uint256` sum) and leaves the goal active. -/
def setAIScore (s : LedgerState) (sender : Addr) (now goalId score : Nat)
    (mintResult : Option Nat) (sendOk : Bool) : Option (LedgerState × List Event) :=
  if goalId < s.goalCounter then
    if sender = s.aiVerifier then
      if score ≤ 100 then
        let g := s.goals goalId
        if g.status = 0 then
          let tailEvents := [Event.aiScoredProof goalId score "AI verification complete",
                             Event.goalVerified goalId sender score (decide (75 ≤ score))]
          if 75 ≤ score then
            let s1 : LedgerState :=
              { s with goals := Function.update s.goals goalId ({ g with aiScore := score, status := 1 }) }
            (onGoalCompleted s1 goalId mintResult).map
              (fun p => (p.1, p.2 ++ Event.goalResolved goalId 1 :: tailEvents))
          else if score < 40 then
            let s1 : LedgerState :=
              { s with goals := Function.update s.goals goalId ({ g with aiScore := score, status := 2 }) }
            (onGoalFailed s1 goalId sendOk).map
              (fun p => (p.1, p.2 ++ Event.goalResolved goalId 2 :: tailEvents))
          else
            if now + s.votingPeriod < U256 then
              let s1 : LedgerState :=
                { s with goals := Function.update s.goals goalId ({ g with aiScore := score }) }
              some (s1, Event.voteStarted goalId (now + s.votingPeriod) :: tailEvents)
            else none
        else none
      else none
    else none
  else none

/-- Entry point `verifyGoal(goalId, result)`, the binary convenience entry point of
the AI verifier: equivalent to a score of 100 (pass) or 0 (fail),
always resolving directly. -/
def verifyGoal (s : LedgerState) (sender : Addr) (goalId : Nat) (result : Bool)
    (mintResult : Option Nat) (sendOk : Bool) : Option (LedgerState × List Event) :=
  if goalId < s.goalCounter then
    if sender = s.aiVerifier then
      let g := s.goals goalId
      if g.status = 0 then
        let score := if result then 100 else 0
        let reason := if result then "Goal verified by AI" else "Goal rejected by AI"
        let tailEvents := [Event.aiScoredProof goalId score reason,
                           Event.goalVerified goalId sender score result]
        if result then
          let s1 : LedgerState :=
            { s with goals := Function.update s.goals goalId ({ g with aiScore := score, status := 1 }) }
          (onGoalCompleted s1 goalId mintResult).map
            (fun p => (p.1, p.2 ++ Event.goalResolved goalId 1 :: tailEvents))
        else
          let s1 : LedgerState :=
            { s with goals := Function.update s.goals goalId ({ g with aiScore := score, status := 2 }) }
          (onGoalFailed s1 goalId sendOk).map
            (fun p => (p.1, p.2 ++ Event.goalResolved goalId 2 :: tailEvents))
      else none
    else none
  else none

/-- Entry point `vote(goalId, support)`: one vote per address on an active goal whose
AI score lies in the 40..74 band; vote counters use checked `uint256`
increments. -/
def vote (s : LedgerState) (sender : Addr) (goalId : Nat) (support : Bool) :
    Option (LedgerState × List Event) :=
  if goalId < s.goalCounter then
    let g := s.goals goalId
    if g.status = 0 then
      if 40 ≤ g.aiScore ∧ g.aiScore < 75 then
        let v := s.votes goalId
        if v.hasVoted sender then none
        else
          if support then
            if v.yesVotes + 1 < U256 then
              let v1 : VoteRec :=
                { v with hasVoted := Function.update v.hasVoted sender true,
                         yesVotes := v.yesVotes + 1 }
              some ({ s with votes := Function.update s.votes goalId v1 },
                    [Event.voteCast goalId sender support])
            else none
          else
            if v.noVotes + 1 < U256 then
              let v1 : VoteRec :=
                { v with hasVoted := Function.update v.hasVoted sender true,
                         noVotes := v.noVotes + 1 }
              some ({ s with votes := Function.update s.votes goalId v1 },
                    [Event.voteCast goalId sender support])
            else none
      else none
    else none
  else none

/-- Entry point `resolveVote(goalId)`, callable by anyone: outcome is
`yesVotes > noVotes` (a tie fails), the vote is marked resolved, and the
goal transitions through the same `_onGoalCompleted` / `_onGoalFailed`
side effects as direct oracle scoring. -/
def resolveVote (s : LedgerState) (goalId : Nat) (mintResult : Option Nat)
    (sendOk : Bool) : Option (LedgerState × List Event) :=
  if goalId < s.goalCounter then
    let g := s.goals goalId
    let v := s.votes goalId
    if v.resolved then none
    else if g.status = 0 then
      let v1 : VoteRec :=
        { v with resolved := true, passed := decide (v.noVotes < v.yesVotes) }
      let s1 : LedgerState := { s with votes := Function.update s.votes goalId v1 }
      if v.noVotes < v.yesVotes then
        let s2 : LedgerState :=
          { s1 with goals := Function.update s1.goals goalId ({ g with status := 1 }) }
        (onGoalCompleted s2 goalId mintResult).map
          (fun p => (p.1, p.2 ++ [Event.voteResolved goalId true v.yesVotes v.noVotes,
                                  Event.goalResolved goalId 1]))
      else
        let s2 : LedgerState :=
          { s1 with goals := Function.update s1.goals goalId ({ g with status := 2 }) }
        (onGoalFailed s2 goalId sendOk).map
          (fun p => (p.1, p.2 ++ [Event.voteResolved goalId false v.yesVotes v.noVotes,
                                  Event.goalResolved goalId 2]))
    else none
  else none

/-- The bookkeeping prefix of `withdrawStake`: zero the goal's recorded
stake and decrement `totalStaked`, exactly the state in effect when the
external transfer to the caller is issued.  Returns the transfer amount. -/
def withdrawBookkeep (s : LedgerState) (goalId : Nat) : LedgerState × Nat :=
  let g := s.goals goalId
  let amount := g.stakeAmount
  ({ s with goals := Function.update s.goals goalId ({ g with stakeAmount := 0 }),
            totalStaked := s.totalStaked - amount }, amount)

/-- Entry point `withdrawStake(goalId)`: owner-only on a completed goal; bookkeeping
is applied first, then the external transfer, whose failure
(`transferOk = false`) reverts the whole call.  The `totalStaked`
decrement is the checked `uint256` subtraction. -/
def withdrawStake (s : LedgerState) (sender : Addr) (goalId : Nat)
    (transferOk : Bool) : Option (LedgerState × List Event) :=
  if goalId < s.goalCounter then
    let g := s.goals goalId
    if g.user = sender then
      if g.status = 1 then
        if g.stakeAmount ≤ s.totalStaked then
          let bk := withdrawBookkeep s goalId
          if transferOk then
            some (bk.1, [Event.stakeWithdrawn sender bk.2])
          else none
        else none
      else none
    else none
  else none

/-- Admin `setAIVerifier`, owner-only. -/
def setAIVerifier (s : LedgerState) (sender v : Addr) : Option (LedgerState × List Event) :=
  if sender = s.owner then some ({ s with aiVerifier := v }, []) else none

/-- Admin `setMinimumStake`, owner-only. -/
def setMinimumStake (s : LedgerState) (sender : Addr) (m : Nat) : Option (LedgerState × List Event) :=
  if sender = s.owner then some ({ s with minimumStake := m }, []) else none

/-- Admin `setVotingPeriod`, owner-only. -/
def setVotingPeriod (s : LedgerState) (sender : Addr) (p : Nat) : Option (LedgerState × List Event) :=
  if sender = s.owner then some ({ s with votingPeriod := p }, []) else none

/-- Admin `setCharityAddress`, owner-only. -/
def setCharityAddress (s : LedgerState) (sender c : Addr) : Option (LedgerState × List Event) :=
  if sender = s.owner then some ({ s with charityAddress := c }, []) else none

/-- Admin `setCharityBasisPoints`, owner-only, capped at 10000. -/
def setCharityBasisPoints (s : LedgerState) (sender : Addr) (bps : Nat) : Option (LedgerState × List Event) :=
  if sender = s.owner then
    if bps ≤ 10000 then some ({ s with charityBasisPoints := bps }, []) else none
  else none

/-- Admin `setBadgeContract`, owner-only. -/
def setBadgeContract (s : LedgerState) (sender b : Addr) : Option (LedgerState × List Event) :=
  if sender = s.owner then some ({ s with badgeMinter := b }, []) else none

/-- One external call to the contract: the seven ledger entry points and
the admin setters, together with the environment-chosen outcomes of the
external calls the contract makes (`mintResult`, `sendOk`, `transferOk`). -/
inductive Op where
  | createGoal (sender : Addr) (value now deadline category : Nat) (description : String)
  | submitProof (sender : Addr) (now goalId : Nat) (proofURI : String)
  | setAIScore (sender : Addr) (now goalId score : Nat) (mintResult : Option Nat) (sendOk : Bool)
  | verifyGoal (sender : Addr) (goalId : Nat) (result : Bool) (mintResult : Option Nat) (sendOk : Bool)
  | vote (sender : Addr) (goalId : Nat) (support : Bool)
  | resolveVote (sender : Addr) (goalId : Nat) (mintResult : Option Nat) (sendOk : Bool)
  | withdrawStake (sender : Addr) (goalId : Nat) (transferOk : Bool)
  | setAIVerifier (sender v : Addr)
  | setMinimumStake (sender : Addr) (m : Nat)
  | setVotingPeriod (sender : Addr) (p : Nat)
  | setCharityAddress (sender c : Addr)
  | setCharityBasisPoints (sender : Addr) (bps : Nat)
  | setBadgeContract (sender b : Addr)
deriving Repr, DecidableEq

/-- Dispatch one call to the matching entry point. -/
def applyOp (s : LedgerState) : Op → Option (LedgerState × List Event)
  | .createGoal sender value now deadline category description =>
      createGoal s sender value now deadline category description
  | .submitProof sender now goalId proofURI => submitProof s sender now goalId proofURI
  | .setAIScore sender now goalId score mintResult sendOk =>
      setAIScore s sender now goalId score mintResult sendOk
  | .verifyGoal sender goalId result mintResult sendOk =>
      verifyGoal s sender goalId result mintResult sendOk
  | .vote sender goalId support => vote s sender goalId support
  | .resolveVote _sender goalId mintResult sendOk => resolveVote s goalId mintResult sendOk
  | .withdrawStake sender goalId transferOk => withdrawStake s sender goalId transferOk
  | .setAIVerifier sender v => setAIVerifier s sender v
  | .setMinimumStake sender m => setMinimumStake s sender m
  | .setVotingPeriod sender p => setVotingPeriod s sender p
  | .setCharityAddress sender c => setCharityAddress s sender c
  | .setCharityBasisPoints sender bps => setCharityBasisPoints s sender bps
  | .setBadgeContract sender b => setBadgeContract s sender b

/-- Execute one call: a reverted call leaves the state unchanged and
emits nothing. -/
def step (s : LedgerState) (op : Op) : LedgerState × List Event :=
  match applyOp s op with
  | some r => r
  | none => (s, [])

/-- Execute a sequence of calls, accumulating the emitted events. -/
def runOps (s : LedgerState) : List Op → LedgerState × List Event
  | [] => (s, [])
  | op :: rest =>
      let r := step s op
      let r2 := runOps r.1 rest
      (r2.1, r.2 ++ r2.2)

/-- Value entering the contract at an event: the `msg.value` recorded by
`GoalCreated`. -/
def depositAmount : Event → Nat
  | .goalCreated _ _ v _ _ _ => v
  | _ => 0

/-- Value leaving the contract to a goal owner: the amount of
`StakeWithdrawn`. -/
def withdrawnAmount : Event → Nat
  | .stakeWithdrawn _ a => a
  | _ => 0

/-- Value leaving the contract to the charity: the amount of
`CharityDonation` (emitted exactly when the transfer succeeded). -/
def donatedAmount : Event → Nat
  | .charityDonation _ _ a => a
  | _ => 0

/-- Sum of all stakes ever deposited over an event log. -/
def totalDeposited : List Event → Nat
  | [] => 0
  | e :: rest => depositAmount e + totalDeposited rest

/-- Total amount withdrawn by owners over an event log. -/
def totalWithdrawn : List Event → Nat
  | [] => 0
  | e :: rest => withdrawnAmount e + totalWithdrawn rest

/-- Total amount donated to the charity over an event log. -/
def totalDonated : List Event → Nat
  | [] => 0
  | e :: rest => donatedAmount e + totalDonated rest

/-- Sum of a per-goal weight over the goal ids below `n`. -/
def sumOver (w : Goal → Nat) (g : Nat → Goal) : Nat → Nat
  | 0 => 0
  | n + 1 => sumOver w g n + w (g n)

/-- Weight: the recorded stake of a goal. -/
def stakeOf (x : Goal) : Nat := x.stakeAmount

/-- Weight: the recorded stake of a failed goal, 0 otherwise. -/
def failedStakeOf (x : Goal) : Nat := if x.status = 2 then x.stakeAmount else 0

/-- Weight: the recorded stake of a non-failed (active or completed)
goal, 0 on failed goals. -/
def liveStakeOf (x : Goal) : Nat := if x.status = 2 then 0 else x.stakeAmount

/-- Weight: the recorded stake of a status-0 (active) goal only. -/
def activeStakeOf (x : Goal) : Nat := if x.status = 0 then x.stakeAmount else 0

/-- The residual value stranded on failed goals: their recorded stakes
minus everything donated to charity (donations happen only at failure
resolution and never exceed the failed stake). -/
def strandedOnFailed (s : LedgerState) (evs : List Event) : Nat :=
  sumOver failedStakeOf s.goals s.goalCounter - totalDonated evs

/-- Calls whose deposit fits the `uint96` stake field (every call that
is not a goal creation trivially does). -/
def opFits : Op → Bool
  | .createGoal _ value _ _ _ _ => value < U96
  | _ => true

theorem totalDeposited_append (a b : List Event) :
    totalDeposited (a ++ b) = totalDeposited a + totalDeposited b := by
  induction a with
  | nil => simp [totalDeposited]
  | cons e rest ih => simp only [List.cons_append, totalDeposited, List.append_eq, ih]; omega

theorem totalWithdrawn_append (a b : List Event) :
    totalWithdrawn (a ++ b) = totalWithdrawn a + totalWithdrawn b := by
  induction a with
  | nil => simp [totalWithdrawn]
  | cons e rest ih => simp only [List.cons_append, totalWithdrawn, List.append_eq, ih]; omega

theorem totalDonated_append (a b : List Event) :
    totalDonated (a ++ b) = totalDonated a + totalDonated b := by
  induction a with
  | nil => simp [totalDonated]
  | cons e rest ih => simp only [List.cons_append, totalDonated, List.append_eq, ih]; omega

theorem sumOver_congr (w : Goal → Nat) {f g : Nat → Goal} :
    ∀ n, (∀ i, i < n → f i = g i) → sumOver w f n = sumOver w g n := by
  intro n
  induction n with
  | zero => intro _; rfl
  | succ m ih =>
      intro h
      simp only [sumOver]
      rw [ih (fun i hi => h i (Nat.lt_succ_of_lt hi)), h m (Nat.lt_succ_self m)]

theorem sumOver_update (w : Goal → Nat) (g : Nat → Goal) (v : Goal) {i : Nat} :
    ∀ {n : Nat}, i < n →
      sumOver w (Function.update g i v) n + w (g i) = sumOver w g n + w v := by
  intro n
  induction n with
  | zero => intro h; exact absurd h (Nat.not_lt_zero i)
  | succ m ih =>
      intro h
      simp only [sumOver]
      rcases Nat.lt_succ_iff_lt_or_eq.mp h with hlt | heq
      · have hne : m ≠ i := by omega
        rw [Function.update_noteq hne]
        have := ih hlt
        omega
      · subst heq
        rw [Function.update_same]
        have heqs : sumOver w (Function.update g i v) i = sumOver w g i := by
          refine sumOver_congr w i (fun j hj => ?_)
          have hne : j ≠ i := by omega
          exact Function.update_noteq hne v g
        rw [heqs]
        omega

theorem sumOver_ext (w : Goal → Nat) (g : Nat → Goal) (v : Goal) (n : Nat) :
    sumOver w (Function.update g n v) (n + 1) = sumOver w g n + w v := by
  simp only [sumOver, Function.update_same]
  congr 1
  refine sumOver_congr w n (fun j hj => ?_)
  have hne : j ≠ n := by omega
  exact Function.update_noteq hne v g

theorem sumOver_split (g : Nat → Goal) (n : Nat) :
    sumOver stakeOf g n = sumOver liveStakeOf g n + sumOver failedStakeOf g n := by
  induction n with
  | zero => rfl
  | succ m ih =>
      simp only [sumOver, ih, stakeOf, liveStakeOf, failedStakeOf]
      by_cases h : (g m).status = 2 <;> simp [h] <;> omega

theorem sumOver_update_eq (w : Goal → Nat) (g : Nat → Goal) (v : Goal) {i n : Nat}
    (h : i < n) (hw : w v = w (g i)) :
    sumOver w (Function.update g i v) n = sumOver w g n := by
  have h2 := sumOver_update w g v h
  omega

theorem charityShare_le {stake bps : Nat} (hbps : bps ≤ 10000) :
    stake * bps / 10000 ≤ stake := by
  have h1 : stake * bps ≤ stake * 10000 := Nat.mul_le_mul_left stake hbps
  have h2 : stake * bps / 10000 ≤ stake * 10000 / 10000 := Nat.div_le_div_right h1
  rw [Nat.mul_div_cancel] at h2
  exact h2
  norm_num

/-- Helper `_onGoalCompleted` never touches the goal records, the counter, the
charity configuration, and emits no value-bearing event. -/
theorem onGoalCompleted_some {s : LedgerState} {goalId : Nat} {mintResult : Option Nat}
    {s2 : LedgerState} {es : List Event}
    (h : onGoalCompleted s goalId mintResult = some (s2, es)) :
    s2.goals = s.goals ∧ s2.goalCounter = s.goalCounter ∧
      s2.charityBasisPoints = s.charityBasisPoints ∧
      totalDeposited es = 0 ∧ totalWithdrawn es = 0 ∧ totalDonated es = 0 := by
  rcases mintResult with _ | tid <;>
    simp only [onGoalCompleted] at h <;>
    split at h <;>
    try exact Option.noConfusion h
  all_goals split at h
  all_goals simp only [Option.some.injEq, Prod.mk.injEq] at h
  all_goals rcases h with ⟨rfl, rfl⟩
  all_goals exact ⟨rfl, rfl, rfl, rfl, rfl, rfl⟩

/-- Helper `_onGoalFailed` never touches the goal records, the counter, the
charity configuration; it emits no deposit and no withdrawal, and the
only value it can emit is one donation of the charity share of the
goal's recorded stake. -/
theorem onGoalFailed_some {s : LedgerState} {goalId : Nat} {sendOk : Bool}
    {s2 : LedgerState} {es : List Event}
    (h : onGoalFailed s goalId sendOk = some (s2, es)) :
    s2.goals = s.goals ∧ s2.goalCounter = s.goalCounter ∧
      s2.charityBasisPoints = s.charityBasisPoints ∧
      totalDeposited es = 0 ∧ totalWithdrawn es = 0 ∧
      totalDonated es ≤ (s.goals goalId).stakeAmount * s.charityBasisPoints / 10000 := by
  simp only [onGoalFailed] at h
  repeat split at h
  all_goals try exact Option.noConfusion h
  all_goals simp only [Option.some.injEq, Prod.mk.injEq] at h
  all_goals rcases h with ⟨rfl, rfl⟩
  all_goals refine ⟨rfl, rfl, rfl, rfl, rfl, ?_⟩
  all_goals simp [totalDonated, donatedAmount]

/-- The value-conservation invariant maintained by every call: the
recorded stakes plus everything withdrawn equal everything deposited,
the donations never exceed the stakes recorded on failed goals, and the
charity share stays within 10000 basis points. -/
def ConservationInv (s : LedgerState) (evs : List Event) : Prop :=
  sumOver stakeOf s.goals s.goalCounter + totalWithdrawn evs = totalDeposited evs
  ∧ totalDonated evs ≤ sumOver failedStakeOf s.goals s.goalCounter
  ∧ s.charityBasisPoints ≤ 10000

theorem createGoal_conservation {s : LedgerState} {sender : Addr}
    {value now deadline category : Nat} {description : String}
    {s' : LedgerState} {es evs : List Event}
    (h : createGoal s sender value now deadline category description = some (s', es))
    (hv : value < U96) (hI : ConservationInv s evs) :
    ConservationInv s' (evs ++ es) := by
  simp only [createGoal] at h
  repeat split at h
  all_goals try exact Option.noConfusion h
  simp only [Option.some.injEq, Prod.mk.injEq] at h
  rcases h with ⟨rfl, rfl⟩
  obtain ⟨h1, h2, h3⟩ := hI
  have hmod : value % U96 = value := Nat.mod_eq_of_lt hv
  refine ⟨?_, ?_, h3⟩
  · show sumOver stakeOf (Function.update s.goals s.goalCounter _) (s.goalCounter + 1) + _ = _
    rw [sumOver_ext]
    simp only [totalWithdrawn_append, totalDeposited_append]
    simp [totalWithdrawn, totalDeposited, withdrawnAmount, depositAmount, stakeOf, hmod]
    omega
  · show totalDonated _ ≤ sumOver failedStakeOf (Function.update s.goals s.goalCounter _) (s.goalCounter + 1)
    rw [sumOver_ext]
    simp only [totalDonated_append]
    simp only [totalDonated, donatedAmount, failedStakeOf]
    simp
    omega

theorem submitProof_conservation {s : LedgerState} {sender : Addr}
    {now goalId : Nat} {proofURI : String} {s' : LedgerState} {es evs : List Event}
    (h : submitProof s sender now goalId proofURI = some (s', es))
    (hI : ConservationInv s evs) :
    ConservationInv s' (evs ++ es) := by
  simp only [submitProof] at h
  repeat split at h
  all_goals try exact Option.noConfusion h
  rename_i hlt _ _ _ _
  simp only [Option.some.injEq, Prod.mk.injEq] at h
  rcases h with ⟨rfl, rfl⟩
  obtain ⟨h1, h2, h3⟩ := hI
  refine ⟨?_, ?_, h3⟩
  · show sumOver stakeOf (Function.update s.goals goalId _) s.goalCounter + _ = _
    rw [sumOver_update_eq _ _ _ hlt (by simp [stakeOf])]
    simp only [totalWithdrawn_append, totalDeposited_append]
    simp [totalWithdrawn, totalDeposited, withdrawnAmount, depositAmount]
    omega
  · show totalDonated _ ≤ sumOver failedStakeOf (Function.update s.goals goalId _) s.goalCounter
    rw [sumOver_update_eq _ _ _ hlt (by simp [failedStakeOf])]
    simp only [totalDonated_append]
    simp only [totalDonated, donatedAmount]
    simp
    omega

theorem ConservationInv_same {s s' : LedgerState} {evs es : List Event}
    (hI : ConservationInv s evs)
    (hg : s'.goals = s.goals) (hc : s'.goalCounter = s.goalCounter)
    (hbps : s'.charityBasisPoints ≤ 10000)
    (hd : totalDeposited es = 0) (hw : totalWithdrawn es = 0)
    (hdon : totalDonated es = 0) :
    ConservationInv s' (evs ++ es) := by
  obtain ⟨h1, h2, h3⟩ := hI
  refine ⟨?_, ?_, hbps⟩ <;> rw [hg, hc] <;>
    simp only [totalWithdrawn_append, totalDeposited_append, totalDonated_append,
      hd, hw, hdon] <;> omega

theorem vote_conservation {s : LedgerState} {sender : Addr} {goalId : Nat}
    {support : Bool} {s' : LedgerState} {es evs : List Event}
    (h : vote s sender goalId support = some (s', es))
    (hI : ConservationInv s evs) :
    ConservationInv s' (evs ++ es) := by
  simp only [vote] at h
  repeat' split at h
  all_goals try exact Option.noConfusion h
  all_goals simp only [Option.some.injEq, Prod.mk.injEq] at h
  all_goals rcases h with ⟨rfl, rfl⟩
  all_goals exact ConservationInv_same hI rfl rfl hI.2.2 rfl rfl rfl

theorem withdrawStake_conservation {s : LedgerState} {sender : Addr} {goalId : Nat}
    {transferOk : Bool} {s' : LedgerState} {es evs : List Event}
    (h : withdrawStake s sender goalId transferOk = some (s', es))
    (hI : ConservationInv s evs) :
    ConservationInv s' (evs ++ es) := by
  simp only [withdrawStake, withdrawBookkeep] at h
  repeat split at h
  all_goals try exact Option.noConfusion h
  rename_i hlt huser hstatus hle htr
  simp only [Option.some.injEq, Prod.mk.injEq] at h
  rcases h with ⟨rfl, rfl⟩
  obtain ⟨h1, h2, h3⟩ := hI
  refine ⟨?_, ?_, h3⟩
  · show sumOver stakeOf (Function.update s.goals goalId _) s.goalCounter + _ = _
    have hupd := sumOver_update stakeOf s.goals
      ({ s.goals goalId with stakeAmount := 0 }) hlt
    simp only [stakeOf] at hupd
    simp only [totalWithdrawn_append, totalDeposited_append, totalWithdrawn,
      totalDeposited, withdrawnAmount, depositAmount]
    omega
  · show totalDonated _ ≤ sumOver failedStakeOf (Function.update s.goals goalId _) s.goalCounter
    rw [sumOver_update_eq _ _ _ hlt (by simp [failedStakeOf, hstatus])]
    simp only [totalDonated_append, totalDonated, donatedAmount]
    omega

theorem setAIScore_conservation {s : LedgerState} {sender : Addr}
    {now goalId score : Nat} {mintResult : Option Nat} {sendOk : Bool}
    {s' : LedgerState} {es evs : List Event}
    (h : setAIScore s sender now goalId score mintResult sendOk = some (s', es))
    (hI : ConservationInv s evs) :
    ConservationInv s' (evs ++ es) := by
  obtain ⟨h1, h2, h3⟩ := hI
  simp only [setAIScore] at h
  repeat' split at h
  all_goals try exact Option.noConfusion h
  · -- completion branch: score ≥ 75
    rename_i hlt hver hsc hstatus hpass
    simp only [Option.map_eq_some'] at h
    obtain ⟨⟨s2, es2⟩, hoc, hfe⟩ := h
    simp only [Prod.mk.injEq] at hfe
    obtain ⟨rfl, rfl⟩ := hfe
    obtain ⟨hg, hc, hb, hd, hw, hdon⟩ := onGoalCompleted_some hoc
    refine ⟨?_, ?_, by rw [hb]; exact h3⟩
    · rw [hg, hc]
      show sumOver stakeOf (Function.update s.goals goalId _) s.goalCounter + _ = _
      rw [sumOver_update_eq _ _ _ hlt (by simp [stakeOf])]
      simp only [totalWithdrawn_append, totalDeposited_append, totalWithdrawn,
        totalDeposited, withdrawnAmount, depositAmount, hd, hw]
      omega
    · rw [hg, hc]
      show totalDonated _ ≤ sumOver failedStakeOf (Function.update s.goals goalId _) s.goalCounter
      rw [sumOver_update_eq _ _ _ hlt (by simp [failedStakeOf, hstatus])]
      simp only [totalDonated_append, totalDonated, donatedAmount, hdon]
      omega
  · -- failure branch: score < 40
    rename_i hlt hver hsc hstatus hnp hlow
    simp only [Option.map_eq_some'] at h
    obtain ⟨⟨s2, es2⟩, hoc, hfe⟩ := h
    simp only [Prod.mk.injEq] at hfe
    obtain ⟨rfl, rfl⟩ := hfe
    obtain ⟨hg, hc, hb, hd, hw, hdon0⟩ := onGoalFailed_some hoc
    have hdon : totalDonated es2 ≤
        (s.goals goalId).stakeAmount * s.charityBasisPoints / 10000 := by
      simpa using hdon0
    refine ⟨?_, ?_, by rw [hb]; exact h3⟩
    · rw [hg, hc]
      show sumOver stakeOf (Function.update s.goals goalId _) s.goalCounter + _ = _
      rw [sumOver_update_eq _ _ _ hlt (by simp [stakeOf])]
      simp only [totalWithdrawn_append, totalDeposited_append, totalWithdrawn,
        totalDeposited, withdrawnAmount, depositAmount, hd, hw]
      omega
    · rw [hg, hc]
      show totalDonated _ ≤ sumOver failedStakeOf (Function.update s.goals goalId _) s.goalCounter
      have hupd := sumOver_update failedStakeOf s.goals
        ({ s.goals goalId with aiScore := score, status := 2 }) hlt
      simp [failedStakeOf, hstatus] at hupd
      simp only [totalDonated_append, totalDonated, donatedAmount]
      have hshare : (s.goals goalId).stakeAmount * s.charityBasisPoints / 10000 ≤
          (s.goals goalId).stakeAmount := charityShare_le h3
      omega
  · -- mid band: goal stays active, voting opens
    rename_i hlt hver hsc hstatus hnp hnl hguard
    simp only [Option.some.injEq, Prod.mk.injEq] at h
    rcases h with ⟨rfl, rfl⟩
    refine ⟨?_, ?_, h3⟩
    · show sumOver stakeOf (Function.update s.goals goalId _) s.goalCounter + _ = _
      rw [sumOver_update_eq _ _ _ hlt (by simp [stakeOf])]
      simp only [totalWithdrawn_append, totalDeposited_append, totalWithdrawn,
        totalDeposited, withdrawnAmount, depositAmount]
      omega
    · show totalDonated _ ≤ sumOver failedStakeOf (Function.update s.goals goalId _) s.goalCounter
      rw [sumOver_update_eq _ _ _ hlt (by simp [failedStakeOf])]
      simp only [totalDonated_append, totalDonated, donatedAmount]
      omega

theorem verifyGoal_conservation {s : LedgerState} {sender : Addr} {goalId : Nat}
    {result : Bool} {mintResult : Option Nat} {sendOk : Bool}
    {s' : LedgerState} {es evs : List Event}
    (h : verifyGoal s sender goalId result mintResult sendOk = some (s', es))
    (hI : ConservationInv s evs) :
    ConservationInv s' (evs ++ es) := by
  obtain ⟨h1, h2, h3⟩ := hI
  simp only [verifyGoal] at h
  repeat' split at h
  all_goals try exact Option.noConfusion h
  · -- pass branch
    rename_i hlt hver hstatus hres
    simp only [Option.map_eq_some'] at h
    obtain ⟨⟨s2, es2⟩, hoc, hfe⟩ := h
    simp only [Prod.mk.injEq] at hfe
    obtain ⟨rfl, rfl⟩ := hfe
    obtain ⟨hg, hc, hb, hd, hw, hdon⟩ := onGoalCompleted_some hoc
    refine ⟨?_, ?_, by rw [hb]; exact h3⟩
    · rw [hg, hc]
      show sumOver stakeOf (Function.update s.goals goalId _) s.goalCounter + _ = _
      rw [sumOver_update_eq _ _ _ hlt (by simp [stakeOf])]
      simp only [totalWithdrawn_append, totalDeposited_append, totalWithdrawn,
        totalDeposited, withdrawnAmount, depositAmount, hd, hw]
      omega
    · rw [hg, hc]
      show totalDonated _ ≤ sumOver failedStakeOf (Function.update s.goals goalId _) s.goalCounter
      rw [sumOver_update_eq _ _ _ hlt (by simp [failedStakeOf, hstatus])]
      simp only [totalDonated_append, totalDonated, donatedAmount, hdon]
      omega
  · -- fail branch
    rename_i hlt hver hstatus hres
    simp only [Option.map_eq_some'] at h
    obtain ⟨⟨s2, es2⟩, hoc, hfe⟩ := h
    simp only [Prod.mk.injEq] at hfe
    obtain ⟨rfl, rfl⟩ := hfe
    obtain ⟨hg, hc, hb, hd, hw, hdon0⟩ := onGoalFailed_some hoc
    have hdon : totalDonated es2 ≤
        (s.goals goalId).stakeAmount * s.charityBasisPoints / 10000 := by
      simpa using hdon0
    refine ⟨?_, ?_, by rw [hb]; exact h3⟩
    · rw [hg, hc]
      show sumOver stakeOf (Function.update s.goals goalId _) s.goalCounter + _ = _
      rw [sumOver_update_eq _ _ _ hlt (by simp [stakeOf])]
      simp only [totalWithdrawn_append, totalDeposited_append, totalWithdrawn,
        totalDeposited, withdrawnAmount, depositAmount, hd, hw]
      omega
    · rw [hg, hc]
      show totalDonated _ ≤ sumOver failedStakeOf (Function.update s.goals goalId _) s.goalCounter
      have hupd := sumOver_update failedStakeOf s.goals
        ({ s.goals goalId with aiScore := 0, status := 2 }) hlt
      simp [failedStakeOf, hstatus] at hupd
      simp only [totalDonated_append, totalDonated, donatedAmount]
      have hshare : (s.goals goalId).stakeAmount * s.charityBasisPoints / 10000 ≤
          (s.goals goalId).stakeAmount := charityShare_le h3
      omega

theorem resolveVote_conservation {s : LedgerState} {goalId : Nat}
    {mintResult : Option Nat} {sendOk : Bool}
    {s' : LedgerState} {es evs : List Event}
    (h : resolveVote s goalId mintResult sendOk = some (s', es))
    (hI : ConservationInv s evs) :
    ConservationInv s' (evs ++ es) := by
  obtain ⟨h1, h2, h3⟩ := hI
  simp only [resolveVote] at h
  repeat' split at h
  all_goals try exact Option.noConfusion h
  · -- vote passed
    rename_i hlt hnres hstatus hpass
    simp only [Option.map_eq_some'] at h
    obtain ⟨⟨s2, es2⟩, hoc, hfe⟩ := h
    simp only [Prod.mk.injEq] at hfe
    obtain ⟨rfl, rfl⟩ := hfe
    obtain ⟨hg, hc, hb, hd, hw, hdon⟩ := onGoalCompleted_some hoc
    refine ⟨?_, ?_, by rw [hb]; exact h3⟩
    · rw [hg, hc]
      show sumOver stakeOf (Function.update s.goals goalId _) s.goalCounter + _ = _
      rw [sumOver_update_eq _ _ _ hlt (by simp [stakeOf])]
      simp only [totalWithdrawn_append, totalDeposited_append, totalWithdrawn,
        totalDeposited, withdrawnAmount, depositAmount, hd, hw]
      omega
    · rw [hg, hc]
      show totalDonated _ ≤ sumOver failedStakeOf (Function.update s.goals goalId _) s.goalCounter
      rw [sumOver_update_eq _ _ _ hlt (by simp [failedStakeOf, hstatus])]
      simp only [totalDonated_append, totalDonated, donatedAmount, hdon]
      omega
  · -- vote failed (including ties)
    rename_i hlt hnres hstatus hpass
    simp only [Option.map_eq_some'] at h
    obtain ⟨⟨s2, es2⟩, hoc, hfe⟩ := h
    simp only [Prod.mk.injEq] at hfe
    obtain ⟨rfl, rfl⟩ := hfe
    obtain ⟨hg, hc, hb, hd, hw, hdon0⟩ := onGoalFailed_some hoc
    have hdon : totalDonated es2 ≤
        (s.goals goalId).stakeAmount * s.charityBasisPoints / 10000 := by
      simpa using hdon0
    refine ⟨?_, ?_, by rw [hb]; exact h3⟩
    · rw [hg, hc]
      show sumOver stakeOf (Function.update s.goals goalId _) s.goalCounter + _ = _
      rw [sumOver_update_eq _ _ _ hlt (by simp [stakeOf])]
      simp only [totalWithdrawn_append, totalDeposited_append, totalWithdrawn,
        totalDeposited, withdrawnAmount, depositAmount, hd, hw]
      omega
    · rw [hg, hc]
      show totalDonated _ ≤ sumOver failedStakeOf (Function.update s.goals goalId _) s.goalCounter
      have hupd := sumOver_update failedStakeOf s.goals
        ({ s.goals goalId with status := 2 }) hlt
      simp [failedStakeOf, hstatus] at hupd
      simp only [totalDonated_append, totalDonated, donatedAmount]
      have hshare : (s.goals goalId).stakeAmount * s.charityBasisPoints / 10000 ≤
          (s.goals goalId).stakeAmount := charityShare_le h3
      omega

theorem applyOp_conservation {s s' : LedgerState} {es evs : List Event} {op : Op}
    (h : applyOp s op = some (s', es)) (hfit : opFits op = true)
    (hI : ConservationInv s evs) : ConservationInv s' (evs ++ es) := by
  cases op with
  | createGoal sender value now deadline category description =>
      simp only [opFits, decide_eq_true_eq] at hfit
      exact createGoal_conservation h hfit hI
  | submitProof sender now goalId proofURI => exact submitProof_conservation h hI
  | setAIScore sender now goalId score mintResult sendOk =>
      exact setAIScore_conservation h hI
  | verifyGoal sender goalId result mintResult sendOk =>
      exact verifyGoal_conservation h hI
  | vote sender goalId support => exact vote_conservation h hI
  | resolveVote sender goalId mintResult sendOk => exact resolveVote_conservation h hI
  | withdrawStake sender goalId transferOk => exact withdrawStake_conservation h hI
  | setAIVerifier sender v =>
      simp only [applyOp, setAIVerifier] at h
      split at h
      · simp only [Option.some.injEq, Prod.mk.injEq] at h
        rcases h with ⟨rfl, rfl⟩
        exact ConservationInv_same hI rfl rfl hI.2.2 rfl rfl rfl
      · exact Option.noConfusion h
  | setMinimumStake sender m =>
      simp only [applyOp, setMinimumStake] at h
      split at h
      · simp only [Option.some.injEq, Prod.mk.injEq] at h
        rcases h with ⟨rfl, rfl⟩
        exact ConservationInv_same hI rfl rfl hI.2.2 rfl rfl rfl
      · exact Option.noConfusion h
  | setVotingPeriod sender p =>
      simp only [applyOp, setVotingPeriod] at h
      split at h
      · simp only [Option.some.injEq, Prod.mk.injEq] at h
        rcases h with ⟨rfl, rfl⟩
        exact ConservationInv_same hI rfl rfl hI.2.2 rfl rfl rfl
      · exact Option.noConfusion h
  | setCharityAddress sender c =>
      simp only [applyOp, setCharityAddress] at h
      split at h
      · simp only [Option.some.injEq, Prod.mk.injEq] at h
        rcases h with ⟨rfl, rfl⟩
        exact ConservationInv_same hI rfl rfl hI.2.2 rfl rfl rfl
      · exact Option.noConfusion h
  | setCharityBasisPoints sender bps =>
      simp only [applyOp, setCharityBasisPoints] at h
      repeat' split at h
      all_goals try exact Option.noConfusion h
      rename_i hown hbps
      simp only [Option.some.injEq, Prod.mk.injEq] at h
      rcases h with ⟨rfl, rfl⟩
      exact ConservationInv_same hI rfl rfl hbps rfl rfl rfl
  | setBadgeContract sender b =>
      simp only [applyOp, setBadgeContract] at h
      split at h
      · simp only [Option.some.injEq, Prod.mk.injEq] at h
        rcases h with ⟨rfl, rfl⟩
        exact ConservationInv_same hI rfl rfl hI.2.2 rfl rfl rfl
      · exact Option.noConfusion h

theorem step_conservation {s : LedgerState} {evs : List Event} {op : Op}
    (hfit : opFits op = true) (hI : ConservationInv s evs) :
    ConservationInv (step s op).1 (evs ++ (step s op).2) := by
  unfold step
  cases hap : applyOp s op with
  | none => simpa using hI
  | some r =>
      rcases r with ⟨s', es⟩
      exact applyOp_conservation hap hfit hI

theorem runOps_conservation (ops : List Op) :
    ∀ (s : LedgerState) (evs : List Event), ConservationInv s evs →
      (∀ op ∈ ops, opFits op = true) →
      ConservationInv (runOps s ops).1 (evs ++ (runOps s ops).2) := by
  induction ops with
  | nil => intro s evs hI _; simp only [runOps]; simpa using hI
  | cons op rest ih =>
      intro s evs hI hfit
      simp only [runOps]
      have hstep := step_conservation (hfit op (by simp)) hI
      have htail := ih (step s op).1 (evs ++ (step s op).2) hstep
        (fun o ho => hfit o (by simp [ho]))
      simpa [List.append_assoc] using htail

theorem initState_conservation (deployer badgeAddr : Addr) :
    ConservationInv (initState deployer badgeAddr) [] := by
  refine ⟨rfl, ?_, by norm_num [initState]⟩
  simp [totalDonated, sumOver, initState]

/-- Trace used to refute claim C1 as literally stated: one goal is
created with the minimum stake and then scored 85 by the oracle, so it
is Completed but its stake has not yet been withdrawn. -/
def c1Trace : List Op :=
  [Op.createGoal 2 (10 ^ 16) 0 10 0 "g", Op.setAIScore 1 0 0 85 none true]

/-- C1, counterexample: the claim's equation sums the stakes of *active*
goals only.  After `createGoal` (stake `10^16`) and `setAIScore 85` the
goal is Completed and unwithdrawn: the sum over active goals, the
withdrawals, the donations and the residue stranded on failed goals are
all zero, yet `10^16` was deposited — the claimed equation fails. -/
theorem C1_conservation_counterexample :
    sumOver activeStakeOf (runOps (initState 1 0) c1Trace).1.goals
        (runOps (initState 1 0) c1Trace).1.goalCounter
      + totalWithdrawn (runOps (initState 1 0) c1Trace).2
      + totalDonated (runOps (initState 1 0) c1Trace).2
      + strandedOnFailed (runOps (initState 1 0) c1Trace).1
          (runOps (initState 1 0) c1Trace).2
      ≠ totalDeposited (runOps (initState 1 0) c1Trace).2 := by decide

/-- C1, amended: for every sequence of ledger operations whose deposits
fit the `uint96` stake field, the sum of stakes recorded on *non-failed*
goals (Active goals plus Completed goals whose stake is not yet
withdrawn) plus the total withdrawn by owners plus the total donated to
the charity plus the residual stranded on failed goals equals the sum of
all stakes ever deposited: no operation creates or destroys staked
value. -/
theorem C1_conservation_amended (deployer badgeAddr : Addr) (ops : List Op)
    (hfit : ∀ op ∈ ops, opFits op = true) :
    sumOver liveStakeOf (runOps (initState deployer badgeAddr) ops).1.goals
        (runOps (initState deployer badgeAddr) ops).1.goalCounter
      + totalWithdrawn (runOps (initState deployer badgeAddr) ops).2
      + totalDonated (runOps (initState deployer badgeAddr) ops).2
      + strandedOnFailed (runOps (initState deployer badgeAddr) ops).1
          (runOps (initState deployer badgeAddr) ops).2
      = totalDeposited (runOps (initState deployer badgeAddr) ops).2 := by
  have h := runOps_conservation ops (initState deployer badgeAddr) []
    (initState_conservation deployer badgeAddr) hfit
  obtain ⟨h1, h2, h3⟩ := h
  simp only [List.nil_append] at h1 h2
  have hsplit := sumOver_split (runOps (initState deployer badgeAddr) ops).1.goals
    (runOps (initState deployer badgeAddr) ops).1.goalCounter
  unfold strandedOnFailed
  omega

/-- C1, witness: the amended conservation equation evaluated on a
concrete trace that creates, completes and withdraws a goal. -/
theorem C1_conservation_amended_witness :
    sumOver liveStakeOf (runOps (initState 1 0) [Op.createGoal 2 (10 ^ 16) 0 10 0 "g",
          Op.setAIScore 1 0 0 85 none true, Op.withdrawStake 2 0 true]).1.goals
        (runOps (initState 1 0) [Op.createGoal 2 (10 ^ 16) 0 10 0 "g",
          Op.setAIScore 1 0 0 85 none true, Op.withdrawStake 2 0 true]).1.goalCounter
      + totalWithdrawn (runOps (initState 1 0) [Op.createGoal 2 (10 ^ 16) 0 10 0 "g",
          Op.setAIScore 1 0 0 85 none true, Op.withdrawStake 2 0 true]).2
      + totalDonated (runOps (initState 1 0) [Op.createGoal 2 (10 ^ 16) 0 10 0 "g",
          Op.setAIScore 1 0 0 85 none true, Op.withdrawStake 2 0 true]).2
      + strandedOnFailed (runOps (initState 1 0) [Op.createGoal 2 (10 ^ 16) 0 10 0 "g",
          Op.setAIScore 1 0 0 85 none true, Op.withdrawStake 2 0 true]).1
          (runOps (initState 1 0) [Op.createGoal 2 (10 ^ 16) 0 10 0 "g",
          Op.setAIScore 1 0 0 85 none true, Op.withdrawStake 2 0 true]).2
      = totalDeposited (runOps (initState 1 0) [Op.createGoal 2 (10 ^ 16) 0 10 0 "g",
          Op.setAIScore 1 0 0 85 none true, Op.withdrawStake 2 0 true]).2 :=
  C1_conservation_amended 1 0
    [Op.createGoal 2 (10 ^ 16) 0 10 0 "g",
     Op.setAIScore 1 0 0 85 none true, Op.withdrawStake 2 0 true] (by decide)

/-- Classification of how one successful call can touch an existing goal
record: the counter never shrinks, the owner field is immutable, the
status only changes away from Active (0), and the recorded stake only
changes by being zeroed by the owner's `withdrawStake` on a Completed
goal. -/
theorem applyOp_goal_evolution {s s' : LedgerState} {es : List Event} {op : Op}
    (h : applyOp s op = some (s', es)) :
    s.goalCounter ≤ s'.goalCounter ∧
    ∀ i, i < s.goalCounter →
      (s'.goals i).user = (s.goals i).user
      ∧ ((s'.goals i).status = (s.goals i).status ∨ (s.goals i).status = 0)
      ∧ ((s'.goals i).stakeAmount = (s.goals i).stakeAmount
          ∨ ((s.goals i).stakeAmount ≠ 0 ∧ (s'.goals i).stakeAmount = 0 ∧
             (s.goals i).status = 1 ∧ (s'.goals i).status = 1 ∧
             op = Op.withdrawStake ((s.goals i).user) i true)) := by
  cases op with
  | createGoal sender value now deadline category description =>
      simp only [applyOp, createGoal] at h
      repeat' split at h
      all_goals try exact Option.noConfusion h
      simp only [Option.some.injEq, Prod.mk.injEq] at h
      rcases h with ⟨rfl, rfl⟩
      refine ⟨by simp, fun i hi => ?_⟩
      have hne : i ≠ s.goalCounter := by omega
      simp [Function.update_noteq hne]
  | submitProof sender now goalId proofURI =>
      simp only [applyOp, submitProof] at h
      repeat' split at h
      all_goals try exact Option.noConfusion h
      rename_i hlt huser hstatus hg64 hnow
      simp only [Option.some.injEq, Prod.mk.injEq] at h
      rcases h with ⟨rfl, rfl⟩
      refine ⟨le_refl _, fun i hi => ?_⟩
      by_cases hii : i = goalId
      · subst hii
        simp [Function.update_same, hstatus]
      · simp [Function.update_noteq hii]
  | setAIScore sender now goalId score mintResult sendOk =>
      simp only [applyOp, setAIScore] at h
      repeat' split at h
      all_goals try exact Option.noConfusion h
      case _ hlt hver hsc hstatus hpass =>
        simp only [Option.map_eq_some'] at h
        obtain ⟨⟨s2, es2⟩, hoc, hfe⟩ := h
        simp only [Prod.mk.injEq] at hfe
        obtain ⟨rfl, rfl⟩ := hfe
        obtain ⟨hg, hc, -, -, -, -⟩ := onGoalCompleted_some hoc
        rw [hg, hc]
        refine ⟨le_refl _, fun i hi => ?_⟩
        by_cases hii : i = goalId
        · subst hii; simp [Function.update_same, hstatus]
        · simp [Function.update_noteq hii]
      case _ hlt hver hsc hstatus hnp hlow =>
        simp only [Option.map_eq_some'] at h
        obtain ⟨⟨s2, es2⟩, hoc, hfe⟩ := h
        simp only [Prod.mk.injEq] at hfe
        obtain ⟨rfl, rfl⟩ := hfe
        obtain ⟨hg, hc, -, -, -, -⟩ := onGoalFailed_some hoc
        rw [hg, hc]
        refine ⟨le_refl _, fun i hi => ?_⟩
        by_cases hii : i = goalId
        · subst hii; simp [Function.update_same, hstatus]
        · simp [Function.update_noteq hii]
      case _ hlt hver hsc hstatus hnp hnl hguard =>
        simp only [Option.some.injEq, Prod.mk.injEq] at h
        rcases h with ⟨rfl, rfl⟩
        refine ⟨le_refl _, fun i hi => ?_⟩
        by_cases hii : i = goalId
        · subst hii; simp [Function.update_same, hstatus]
        · simp [Function.update_noteq hii]
  | verifyGoal sender goalId result mintResult sendOk =>
      simp only [applyOp, verifyGoal] at h
      repeat' split at h
      all_goals try exact Option.noConfusion h
      case _ hlt hver hstatus hres =>
        simp only [Option.map_eq_some'] at h
        obtain ⟨⟨s2, es2⟩, hoc, hfe⟩ := h
        simp only [Prod.mk.injEq] at hfe
        obtain ⟨rfl, rfl⟩ := hfe
        obtain ⟨hg, hc, -, -, -, -⟩ := onGoalCompleted_some hoc
        rw [hg, hc]
        refine ⟨le_refl _, fun i hi => ?_⟩
        by_cases hii : i = goalId
        · subst hii; simp [Function.update_same, hstatus]
        · simp [Function.update_noteq hii]
      case _ hlt hver hstatus hres =>
        simp only [Option.map_eq_some'] at h
        obtain ⟨⟨s2, es2⟩, hoc, hfe⟩ := h
        simp only [Prod.mk.injEq] at hfe
        obtain ⟨rfl, rfl⟩ := hfe
        obtain ⟨hg, hc, -, -, -, -⟩ := onGoalFailed_some hoc
        rw [hg, hc]
        refine ⟨le_refl _, fun i hi => ?_⟩
        by_cases hii : i = goalId
        · subst hii; simp [Function.update_same, hstatus]
        · simp [Function.update_noteq hii]
  | vote sender goalId support =>
      simp only [applyOp, vote] at h
      repeat' split at h
      all_goals try exact Option.noConfusion h
      all_goals simp only [Option.some.injEq, Prod.mk.injEq] at h
      all_goals rcases h with ⟨rfl, rfl⟩
      all_goals exact ⟨le_refl _, fun i hi => ⟨rfl, Or.inl rfl, Or.inl rfl⟩⟩
  | resolveVote sender goalId mintResult sendOk =>
      simp only [applyOp, resolveVote] at h
      repeat' split at h
      all_goals try exact Option.noConfusion h
      case _ hlt hnres hstatus hpass =>
        simp only [Option.map_eq_some'] at h
        obtain ⟨⟨s2, es2⟩, hoc, hfe⟩ := h
        simp only [Prod.mk.injEq] at hfe
        obtain ⟨rfl, rfl⟩ := hfe
        obtain ⟨hg, hc, -, -, -, -⟩ := onGoalCompleted_some hoc
        rw [hg, hc]
        refine ⟨le_refl _, fun i hi => ?_⟩
        by_cases hii : i = goalId
        · subst hii; simp [Function.update_same, hstatus]
        · simp [Function.update_noteq hii]
      case _ hlt hnres hstatus hpass =>
        simp only [Option.map_eq_some'] at h
        obtain ⟨⟨s2, es2⟩, hoc, hfe⟩ := h
        simp only [Prod.mk.injEq] at hfe
        obtain ⟨rfl, rfl⟩ := hfe
        obtain ⟨hg, hc, -, -, -, -⟩ := onGoalFailed_some hoc
        rw [hg, hc]
        refine ⟨le_refl _, fun i hi => ?_⟩
        by_cases hii : i = goalId
        · subst hii; simp [Function.update_same, hstatus]
        · simp [Function.update_noteq hii]
  | withdrawStake sender goalId transferOk =>
      simp only [applyOp, withdrawStake, withdrawBookkeep] at h
      repeat' split at h
      all_goals try exact Option.noConfusion h
      rename_i hlt huser hstatus hle htr
      simp only [Option.some.injEq, Prod.mk.injEq] at h
      rcases h with ⟨rfl, rfl⟩
      refine ⟨le_refl _, fun i hi => ?_⟩
      by_cases hii : i = goalId
      · subst hii
        by_cases hz : (s.goals i).stakeAmount = 0
        · simp [Function.update_same, hz]
        · refine ⟨by simp, Or.inl (by simp), Or.inr ⟨hz, by simp, hstatus, ?_, ?_⟩⟩
          · simp [hstatus]
          · rw [huser]
            have : transferOk = true := by
              cases transferOk
              · exact absurd htr (by simp)
              · rfl
            rw [this]
      · simp [Function.update_noteq hii]
  | setAIVerifier sender v =>
      simp only [applyOp, setAIVerifier] at h
      split at h
      · simp only [Option.some.injEq, Prod.mk.injEq] at h
        rcases h with ⟨rfl, rfl⟩
        exact ⟨le_refl _, fun i hi => ⟨rfl, Or.inl rfl, Or.inl rfl⟩⟩
      · exact Option.noConfusion h
  | setMinimumStake sender m =>
      simp only [applyOp, setMinimumStake] at h
      split at h
      · simp only [Option.some.injEq, Prod.mk.injEq] at h
        rcases h with ⟨rfl, rfl⟩
        exact ⟨le_refl _, fun i hi => ⟨rfl, Or.inl rfl, Or.inl rfl⟩⟩
      · exact Option.noConfusion h
  | setVotingPeriod sender p =>
      simp only [applyOp, setVotingPeriod] at h
      split at h
      · simp only [Option.some.injEq, Prod.mk.injEq] at h
        rcases h with ⟨rfl, rfl⟩
        exact ⟨le_refl _, fun i hi => ⟨rfl, Or.inl rfl, Or.inl rfl⟩⟩
      · exact Option.noConfusion h
  | setCharityAddress sender c =>
      simp only [applyOp, setCharityAddress] at h
      split at h
      · simp only [Option.some.injEq, Prod.mk.injEq] at h
        rcases h with ⟨rfl, rfl⟩
        exact ⟨le_refl _, fun i hi => ⟨rfl, Or.inl rfl, Or.inl rfl⟩⟩
      · exact Option.noConfusion h
  | setCharityBasisPoints sender bps =>
      simp only [applyOp, setCharityBasisPoints] at h
      repeat' split at h
      all_goals try exact Option.noConfusion h
      simp only [Option.some.injEq, Prod.mk.injEq] at h
      rcases h with ⟨rfl, rfl⟩
      exact ⟨le_refl _, fun i hi => ⟨rfl, Or.inl rfl, Or.inl rfl⟩⟩
  | setBadgeContract sender b =>
      simp only [applyOp, setBadgeContract] at h
      split at h
      · simp only [Option.some.injEq, Prod.mk.injEq] at h
        rcases h with ⟨rfl, rfl⟩
        exact ⟨le_refl _, fun i hi => ⟨rfl, Or.inl rfl, Or.inl rfl⟩⟩
      · exact Option.noConfusion h

/-- C2: once a goal's status has become Completed (1) or Failed (2),
every call to `setAIScore`, `verifyGoal`, `vote` or `resolveVote` on
that goal reverts, and every successful call of any kind preserves the
goal's existence and its terminal status — so the completion or failure
side effects of a goal run at most once. -/
theorem C2_terminal_no_rescoring (s : LedgerState) (i : Nat)
    (hlt : i < s.goalCounter)
    (hterm : (s.goals i).status = 1 ∨ (s.goals i).status = 2) :
    (∀ sender now score mintResult sendOk,
        setAIScore s sender now i score mintResult sendOk = none)
    ∧ (∀ sender result mintResult sendOk,
        verifyGoal s sender i result mintResult sendOk = none)
    ∧ (∀ sender support, vote s sender i support = none)
    ∧ (∀ mintResult sendOk, resolveVote s i mintResult sendOk = none)
    ∧ (∀ op s' es, applyOp s op = some (s', es) →
        i < s'.goalCounter ∧ (s'.goals i).status = (s.goals i).status) := by
  have hs0 : ¬ (s.goals i).status = 0 := by rcases hterm with h | h <;> omega
  refine ⟨?_, ?_, ?_, ?_, ?_⟩
  · intro sender now score mintResult sendOk
    simp [setAIScore, hs0]
  · intro sender result mintResult sendOk
    simp [verifyGoal, hs0]
  · intro sender support
    simp [vote, hs0]
  · intro mintResult sendOk
    simp [resolveVote, hs0]
  · intro op s' es h
    obtain ⟨hcnt, hall⟩ := applyOp_goal_evolution h
    obtain ⟨-, hstat, -⟩ := hall i hlt
    refine ⟨by omega, ?_⟩
    rcases hstat with he | h0
    · exact he
    · exact absurd h0 hs0

/-- State used to witness C2: goal 0 has been scored 85 and is Completed. -/
def c2State : LedgerState :=
  (runOps (initState 1 0)
    [Op.createGoal 2 (10 ^ 16) 0 10 0 "g", Op.setAIScore 1 0 0 85 none true]).1

/-- C2, witness: the terminality guarantee evaluated on a concrete
Completed goal. -/
theorem C2_terminal_no_rescoring_witness :
    (∀ sender now score mintResult sendOk,
        setAIScore c2State sender now 0 score mintResult sendOk = none)
    ∧ (∀ sender result mintResult sendOk,
        verifyGoal c2State sender 0 result mintResult sendOk = none)
    ∧ (∀ sender support, vote c2State sender 0 support = none)
    ∧ (∀ mintResult sendOk, resolveVote c2State 0 mintResult sendOk = none)
    ∧ (∀ op s' es, applyOp c2State op = some (s', es) →
        0 < s'.goalCounter ∧ (s'.goals 0).status = (c2State.goals 0).status) :=
  C2_terminal_no_rescoring c2State 0 (by decide) (Or.inl (by decide))

/-- State in which goal 0 was created with stake `10^16`, scored 85 by
the oracle (Completed), and not yet withdrawn. -/
def c3Pre : LedgerState :=
  (runOps (initState 1 0)
    [Op.createGoal 2 (10 ^ 16) 0 10 0 "g", Op.setAIScore 1 0 0 85 none true]).1

/-- State after the owner's first successful `withdrawStake` on goal 0. -/
def c3State : LedgerState :=
  (runOps (initState 1 0)
    [Op.createGoal 2 (10 ^ 16) 0 10 0 "g", Op.setAIScore 1 0 0 85 none true,
     Op.withdrawStake 2 0 true]).1

/-- C3, counterexample: the claim says a second `withdrawStake` after a
successful first one must fail; in the code the goal keeps status
Completed and the zeroed stake passes every check, so the second call
succeeds (as a zero-amount transfer). -/
theorem C3_second_withdraw_counterexample :
    (withdrawStake c3State 2 0 true).isSome = true := by decide

/-- A second `withdrawStake` on a goal whose stake was already zeroed by
a successful first call is a no-op succeeding with a zero transfer. -/
theorem withdraw_again_noop {s : LedgerState} {sender : Addr} {i : Nat}
    {tOk : Bool} {s1 : LedgerState} {es1 : List Event}
    (h1 : withdrawStake s sender i tOk = some (s1, es1)) :
    withdrawStake s1 sender i true = some (s1, [Event.stakeWithdrawn sender 0]) := by
  simp only [withdrawStake, withdrawBookkeep] at h1
  repeat' split at h1
  all_goals try exact Option.noConfusion h1
  rename_i hlt huser hstat hle htr
  simp only [Option.some.injEq, Prod.mk.injEq] at h1
  rcases h1 with ⟨rfl, rfl⟩
  simp [withdrawStake, withdrawBookkeep, Function.update_same, Function.update_idem,
    hlt, huser, hstat]

/-- C3, amended: after a successful `withdrawStake`, a second
`withdrawStake` call on the same goal succeeds but is a no-op: it
transfers amount 0 and leaves the ledger state completely unchanged, so
the owner balance does not change. -/
theorem C3_second_withdraw_noop {s : LedgerState} {sender : Addr} {i : Nat}
    {tOk : Bool} {s1 : LedgerState} {es1 : List Event}
    (h1 : withdrawStake s sender i tOk = some (s1, es1)) :
    withdrawStake s1 sender i true = some (s1, [Event.stakeWithdrawn sender 0]) :=
  withdraw_again_noop h1

/-- C3, witness: the amended no-op behaviour on the concrete state after
a successful first withdrawal. -/
theorem C3_second_withdraw_noop_witness :
    withdrawStake c3State 2 0 true = some (c3State, [Event.stakeWithdrawn 2 0]) :=
  C3_second_withdraw_noop
    (show withdrawStake c3Pre 2 0 true
        = some (c3State, [Event.stakeWithdrawn 2 (10 ^ 16)]) by rfl)

/-- Run in which a goal with a configured charity fails: create with
stake `10^16`, then `verifyGoal(0, false)` donates half and leaves the
rest stranded. -/
def c4Run : LedgerState × List Event :=
  runOps (initState 1 0)
    [Op.setCharityAddress 1 3, Op.createGoal 2 (10 ^ 16) 0 10 0 "g",
     Op.verifyGoal 1 0 false none true]

/-- C4, counterexample: the claim says the recorded `stakeAmount` is
decremented to zero on the beneficiary payout of the Failed path; in
the code `_onGoalFailed` transfers the charity share but never touches
`stakeAmount`: after the failure resolution the goal is Failed, a
donation was emitted, yet the recorded stake is still the full `10^16`. -/
theorem C4_stake_zeroed_counterexample :
    (c4Run.1.goals 0).status = 2
      ∧ totalDonated c4Run.2 ≠ 0
      ∧ (c4Run.1.goals 0).stakeAmount ≠ 0 := by decide

/-- C4, amended: the recorded `stakeAmount` of an existing goal is
decremented at most once over the goal's lifetime: any successful
operation either leaves it unchanged, or is the owner's `withdrawStake`
on the Completed path, which zeroes a previously nonzero stake (so it
can never be decremented twice).  On the Failed path the recorded
stake is never decremented; only the charity share leaves custody,
exactly once, at the failure resolution. -/
theorem C4_stake_moved_at_most_once {s s' : LedgerState} {es : List Event} {op : Op}
    (h : applyOp s op = some (s', es)) (i : Nat) (hlt : i < s.goalCounter) :
    (s'.goals i).stakeAmount = (s.goals i).stakeAmount
    ∨ ((s.goals i).stakeAmount ≠ 0 ∧ (s'.goals i).stakeAmount = 0 ∧
       (s.goals i).status = 1 ∧ op = Op.withdrawStake ((s.goals i).user) i true) := by
  obtain ⟨-, hall⟩ := applyOp_goal_evolution h
  obtain ⟨-, -, hstake⟩ := hall i hlt
  rcases hstake with he | ⟨hnz, hz, hst, -, hop⟩
  · exact Or.inl he
  · exact Or.inr ⟨hnz, hz, hst, hop⟩

/-- State with a charity configured and one Active goal of stake `10^16`. -/
def c4Pre : LedgerState :=
  (runOps (initState 1 0)
    [Op.setCharityAddress 1 3, Op.createGoal 2 (10 ^ 16) 0 10 0 "g"]).1

/-- The failing verification call used in the C4 witness. -/
def c4Op : Op := Op.verifyGoal 1 0 false none true

/-- State after the failing verification call of the C4 witness. -/
def c4Post : LedgerState := ((applyOp c4Pre c4Op).getD (c4Pre, [])).1

/-- Events of the failing verification call of the C4 witness. -/
def c4PostEvents : List Event := ((applyOp c4Pre c4Op).getD (c4Pre, [])).2

/-- C4, witness: the amended classification evaluated on the concrete
failure resolution (the stake stays unchanged there). -/
theorem C4_stake_moved_at_most_once_witness :
    (c4Post.goals 0).stakeAmount = (c4Pre.goals 0).stakeAmount
    ∨ ((c4Pre.goals 0).stakeAmount ≠ 0 ∧ (c4Post.goals 0).stakeAmount = 0 ∧
       (c4Pre.goals 0).status = 1 ∧ c4Op = Op.withdrawStake ((c4Pre.goals 0).user) 0 true) :=
  C4_stake_moved_at_most_once
    (show applyOp c4Pre c4Op = some (c4Post, c4PostEvents) from rfl) 0 (by decide)

theorem onGoalCompleted_succeeds (s : LedgerState) (i : Nat) (mintResult : Option Nat)
    (h : s.userStreaks ((s.goals i).user) + 1 < U64) :
    ∃ s2 es2, onGoalCompleted s i mintResult = some (s2, es2) := by
  simp only [onGoalCompleted]
  rw [if_pos h]
  by_cases hb : s.badgeMinter ≠ 0
  · rw [if_pos hb]
    cases mintResult <;> exact ⟨_, _, rfl⟩
  · rw [if_neg hb]
    exact ⟨_, _, rfl⟩

theorem onGoalFailed_succeeds (s : LedgerState) (i : Nat) (sendOk : Bool)
    (hmul : (s.goals i).stakeAmount * s.charityBasisPoints < U256) :
    ∃ s2 es2, onGoalFailed s i sendOk = some (s2, es2) := by
  simp only [onGoalFailed]
  by_cases hc : s.charityAddress ≠ 0 ∧ 0 < (s.goals i).stakeAmount
  · rw [if_pos hc, if_pos hmul]
    by_cases ha : 0 < (s.goals i).stakeAmount * s.charityBasisPoints / 10000
    · rw [if_pos ha]
      cases sendOk
      · rw [if_neg (by simp)]
        exact ⟨_, _, rfl⟩
      · rw [if_pos rfl]
        exact ⟨_, _, rfl⟩
    · rw [if_neg ha]
      exact ⟨_, _, rfl⟩
  · rw [if_neg hc]
    exact ⟨_, _, rfl⟩

/-- C5: for every existing Active goal and score `0 ≤ s ≤ 100`, an
oracle call `setAIScore(id, s)` with `s ≥ 75` always succeeds and leaves
the goal Completed; with `s < 40` it always succeeds and leaves it
Failed; and with `40 ≤ s < 75` it always succeeds, leaves the status
Active, and emits the vote-opened notification with deadline
`now + votingPeriod`.  (The arithmetic side conditions rule out the
checked-overflow reverts of the streak counter, the charity share
product and the voting deadline sum.) -/
theorem C5_threshold_correctness (s : LedgerState) (sender : Addr)
    (now i score : Nat) (mintResult : Option Nat) (sendOk : Bool)
    (hlt : i < s.goalCounter) (hver : sender = s.aiVerifier)
    (hscore : score ≤ 100) (hactive : (s.goals i).status = 0)
    (hstreak : s.userStreaks ((s.goals i).user) + 1 < U64)
    (hmul : (s.goals i).stakeAmount * s.charityBasisPoints < U256)
    (hvp : now + s.votingPeriod < U256) :
    (75 ≤ score → ∃ s' es, setAIScore s sender now i score mintResult sendOk = some (s', es)
        ∧ (s'.goals i).status = 1)
    ∧ (score < 40 → ∃ s' es, setAIScore s sender now i score mintResult sendOk = some (s', es)
        ∧ (s'.goals i).status = 2)
    ∧ (40 ≤ score → score < 75 →
        ∃ s' es, setAIScore s sender now i score mintResult sendOk = some (s', es)
        ∧ (s'.goals i).status = 0 ∧ (s'.goals i).aiScore = score
        ∧ Event.voteStarted i (now + s.votingPeriod) ∈ es) := by
  refine ⟨?_, ?_, ?_⟩
  · intro hpass
    simp only [setAIScore, if_pos hlt, if_pos hver, if_pos hscore, if_pos hactive,
      if_pos hpass]
    obtain ⟨s2, es2, hoc⟩ := onGoalCompleted_succeeds { s with goals := Function.update s.goals i ({ s.goals i with aiScore := score, status := 1 }) } i mintResult (by simpa using hstreak)
    rw [hoc]
    refine ⟨s2, _, rfl, ?_⟩
    obtain ⟨hg, -, -, -, -, -⟩ := onGoalCompleted_some hoc
    rw [hg]
    simp [Function.update_same]
  · intro hlow
    have hnp : ¬ 75 ≤ score := by omega
    simp only [setAIScore, if_pos hlt, if_pos hver, if_pos hscore, if_pos hactive,
      if_neg hnp, if_pos hlow]
    obtain ⟨s2, es2, hof⟩ := onGoalFailed_succeeds { s with goals := Function.update s.goals i ({ s.goals i with aiScore := score, status := 2 }) } i sendOk (by simpa using hmul)
    rw [hof]
    refine ⟨s2, _, rfl, ?_⟩
    obtain ⟨hg, -, -, -, -, -⟩ := onGoalFailed_some hof
    rw [hg]
    simp [Function.update_same]
  · intro hge hlt75
    have hnp : ¬ 75 ≤ score := by omega
    have hnl : ¬ score < 40 := by omega
    simp only [setAIScore, if_pos hlt, if_pos hver, if_pos hscore, if_pos hactive,
      if_neg hnp, if_neg hnl, if_pos hvp]
    exact ⟨_, _, rfl, by simp [Function.update_same, hactive],
      by simp [Function.update_same], by simp⟩

/-- State used to witness C5: a single freshly created Active goal,
oracle identity 1. -/
def c5Pre : LedgerState :=
  (runOps (initState 1 0) [Op.createGoal 2 (10 ^ 16) 0 10 0 "g"]).1

/-- C5, witness: the threshold behaviour at score 85 on the concrete
Active goal (the completion branch fires; the other two branches are
instantiated vacuously). -/
theorem C5_threshold_correctness_witness :
    (75 ≤ 85 → ∃ s' es, setAIScore c5Pre 1 0 0 85 none true = some (s', es)
        ∧ (s'.goals 0).status = 1)
    ∧ (85 < 40 → ∃ s' es, setAIScore c5Pre 1 0 0 85 none true = some (s', es)
        ∧ (s'.goals 0).status = 2)
    ∧ (40 ≤ 85 → 85 < 75 →
        ∃ s' es, setAIScore c5Pre 1 0 0 85 none true = some (s', es)
        ∧ (s'.goals 0).status = 0 ∧ (s'.goals 0).aiScore = 85
        ∧ Event.voteStarted 0 (0 + c5Pre.votingPeriod) ∈ es) :=
  C5_threshold_correctness c5Pre 1 0 0 85 none true (by decide) (by decide)
    (by decide) (by decide) (by decide) (by decide) (by decide)

/-- C6: withdrawal is atomic and ordered: (1) if the external transfer
fails the whole `withdrawStake` call fails and no bookkeeping mutation
survives; (2) a successful call's post-state is exactly the bookkeeping
state `withdrawBookkeep` in effect when the external transfer is issued
— the goal's stake already zeroed and `totalStaked` already decremented
by the payout amount; (3) a reentrant `withdrawStake` issued against
that bookkeeping state can only transfer 0, so no double payout is
possible. -/
theorem C6_withdraw_atomic_ordering (s : LedgerState) (sender : Addr) (i : Nat) :
    (withdrawStake s sender i false = none)
    ∧ (∀ tOk s' es, withdrawStake s sender i tOk = some (s', es) →
        s' = (withdrawBookkeep s i).1
        ∧ es = [Event.stakeWithdrawn sender ((s.goals i).stakeAmount)]
        ∧ (s'.goals i).stakeAmount = 0
        ∧ s'.totalStaked + (s.goals i).stakeAmount = s.totalStaked)
    ∧ (∀ tOk s' es, withdrawStake s sender i tOk = some (s', es) →
        withdrawStake s' sender i true = some (s', [Event.stakeWithdrawn sender 0])) := by
  refine ⟨?_, ?_, ?_⟩
  · simp [withdrawStake, withdrawBookkeep]
  · intro tOk s' es h
    simp only [withdrawStake, withdrawBookkeep] at h
    repeat' split at h
    all_goals try exact Option.noConfusion h
    rename_i hlt huser hstat hle htr
    simp only [Option.some.injEq, Prod.mk.injEq] at h
    rcases h with ⟨rfl, rfl⟩
    refine ⟨rfl, rfl, by simp [Function.update_same], ?_⟩
    show s.totalStaked - (s.goals i).stakeAmount + (s.goals i).stakeAmount = s.totalStaked
    omega
  · intro tOk s' es h
    exact withdraw_again_noop h

/-- State used to witness C6: goal 0 is Completed with stake `10^16`
still in custody. -/
def c6Pre : LedgerState :=
  (runOps (initState 1 0)
    [Op.createGoal 2 (10 ^ 16) 0 10 0 "g", Op.setAIScore 1 0 0 85 none true]).1

/-- Post-state of the witnessed successful withdrawal for C6. -/
def c6Post : LedgerState := ((withdrawStake c6Pre 2 0 true).getD (c6Pre, [])).1

/-- Events of the witnessed successful withdrawal for C6. -/
def c6PostEvents : List Event := ((withdrawStake c6Pre 2 0 true).getD (c6Pre, [])).2

/-- C6, witness: atomicity and ordering evaluated on a concrete
completed goal and its successful withdrawal. -/
theorem C6_withdraw_atomic_ordering_witness :
    withdrawStake c6Pre 2 0 false = none
    ∧ (c6Post = (withdrawBookkeep c6Pre 0).1
       ∧ c6PostEvents = [Event.stakeWithdrawn 2 ((c6Pre.goals 0).stakeAmount)]
       ∧ (c6Post.goals 0).stakeAmount = 0
       ∧ c6Post.totalStaked + (c6Pre.goals 0).stakeAmount = c6Pre.totalStaked)
    ∧ withdrawStake c6Post 2 0 true = some (c6Post, [Event.stakeWithdrawn 2 0]) :=
  ⟨(C6_withdraw_atomic_ordering c6Pre 2 0).1,
   (C6_withdraw_atomic_ordering c6Pre 2 0).2.1 true c6Post c6PostEvents rfl,
   (C6_withdraw_atomic_ordering c6Pre 2 0).2.2 true c6Post c6PostEvents rfl⟩

theorem onGoalCompleted_votes {s : LedgerState} {i : Nat} {mintResult : Option Nat}
    {s2 : LedgerState} {es : List Event}
    (h : onGoalCompleted s i mintResult = some (s2, es)) : s2.votes = s.votes := by
  rcases mintResult with _ | tid <;>
    simp only [onGoalCompleted] at h <;>
    split at h <;>
    try exact Option.noConfusion h
  all_goals split at h
  all_goals simp only [Option.some.injEq, Prod.mk.injEq] at h
  all_goals rcases h with ⟨rfl, rfl⟩
  all_goals rfl

theorem onGoalFailed_votes {s : LedgerState} {i : Nat} {sendOk : Bool}
    {s2 : LedgerState} {es : List Event}
    (h : onGoalFailed s i sendOk = some (s2, es)) : s2.votes = s.votes := by
  simp only [onGoalFailed] at h
  repeat split at h
  all_goals try exact Option.noConfusion h
  all_goals simp only [Option.some.injEq, Prod.mk.injEq] at h
  all_goals rcases h with ⟨rfl, rfl⟩
  all_goals rfl

/-- C7: on an Active goal whose vote is unresolved, `resolveVote`
succeeds for any caller, marks the vote resolved, stores the outcome
`yesVotes > noVotes` (so a tie resolves to fail), transitions the goal
to Completed or Failed by running exactly the shared `_onGoalCompleted`
/ `_onGoalFailed` side effects used by direct oracle scoring, and a
second `resolveVote` on the goal then always fails. -/
theorem C7_resolve_vote_rule (s : LedgerState) (i : Nat)
    (mintResult : Option Nat) (sendOk : Bool)
    (hlt : i < s.goalCounter)
    (hnres : (s.votes i).resolved = false)
    (hactive : (s.goals i).status = 0)
    (hstreak : s.userStreaks ((s.goals i).user) + 1 < U64)
    (hmul : (s.goals i).stakeAmount * s.charityBasisPoints < U256) :
    ∃ s' es, resolveVote s i mintResult sendOk = some (s', es)
      ∧ (s'.votes i).resolved = true
      ∧ (s'.votes i).passed = decide ((s.votes i).noVotes < (s.votes i).yesVotes)
      ∧ ((s.votes i).noVotes < (s.votes i).yesVotes →
          (s'.goals i).status = 1
          ∧ ∃ es2, onGoalCompleted { s with votes := Function.update s.votes i ({ s.votes i with resolved := true, passed := decide ((s.votes i).noVotes < (s.votes i).yesVotes) }), goals := Function.update s.goals i ({ s.goals i with status := 1 }) } i mintResult = some (s', es2)
            ∧ es = es2 ++ [Event.voteResolved i true (s.votes i).yesVotes (s.votes i).noVotes,
                           Event.goalResolved i 1])
      ∧ (¬ (s.votes i).noVotes < (s.votes i).yesVotes →
          (s'.goals i).status = 2
          ∧ ∃ es2, onGoalFailed { s with votes := Function.update s.votes i ({ s.votes i with resolved := true, passed := decide ((s.votes i).noVotes < (s.votes i).yesVotes) }), goals := Function.update s.goals i ({ s.goals i with status := 2 }) } i sendOk = some (s', es2)
            ∧ es = es2 ++ [Event.voteResolved i false (s.votes i).yesVotes (s.votes i).noVotes,
                           Event.goalResolved i 2])
      ∧ (∀ mintResult2 sendOk2, resolveVote s' i mintResult2 sendOk2 = none) := by
  by_cases hp : (s.votes i).noVotes < (s.votes i).yesVotes
  · obtain ⟨s2, es2, hoc⟩ := onGoalCompleted_succeeds { s with votes := Function.update s.votes i ({ s.votes i with resolved := true, passed := decide ((s.votes i).noVotes < (s.votes i).yesVotes) }), goals := Function.update s.goals i ({ s.goals i with status := 1 }) } i mintResult (by simpa using hstreak)
    have hres : resolveVote s i mintResult sendOk
        = some (s2, es2 ++ [Event.voteResolved i true (s.votes i).yesVotes (s.votes i).noVotes,
                            Event.goalResolved i 1]) := by
      simp only [resolveVote, if_pos hlt]
      rw [if_neg (by simp [hnres]), if_pos hactive, if_pos hp, hoc]
      rfl
    have hv2 : s2.votes = _ := onGoalCompleted_votes hoc
    obtain ⟨hg, -, -, -, -, -⟩ := onGoalCompleted_some hoc
    refine ⟨s2, _, hres, ?_, ?_, ?_, ?_, ?_⟩
    · rw [hv2]; simp [Function.update_same]
    · rw [hv2]; simp [Function.update_same]
    · intro _
      refine ⟨?_, es2, hoc, rfl⟩
      rw [hg]
      simp [Function.update_same]
    · intro hcon; exact absurd hp hcon
    · intro m2 k2
      have hres2 : (s2.votes i).resolved = true := by
        rw [hv2]; simp [Function.update_same]
      simp [resolveVote, hres2]
  · obtain ⟨s2, es2, hof⟩ := onGoalFailed_succeeds { s with votes := Function.update s.votes i ({ s.votes i with resolved := true, passed := decide ((s.votes i).noVotes < (s.votes i).yesVotes) }), goals := Function.update s.goals i ({ s.goals i with status := 2 }) } i sendOk (by simpa using hmul)
    have hres : resolveVote s i mintResult sendOk
        = some (s2, es2 ++ [Event.voteResolved i false (s.votes i).yesVotes (s.votes i).noVotes,
                            Event.goalResolved i 2]) := by
      simp only [resolveVote, if_pos hlt]
      rw [if_neg (by simp [hnres]), if_pos hactive, if_neg hp, hof]
      rfl
    have hv2 : s2.votes = _ := onGoalFailed_votes hof
    obtain ⟨hg, -, -, -, -, -⟩ := onGoalFailed_some hof
    refine ⟨s2, _, hres, ?_, ?_, ?_, ?_, ?_⟩
    · rw [hv2]; simp [Function.update_same]
    · rw [hv2]; simp [Function.update_same]
    · intro hcon; exact absurd hcon hp
    · intro _
      refine ⟨?_, es2, hof, rfl⟩
      rw [hg]
      simp [Function.update_same]
    · intro m2 k2
      have hres2 : (s2.votes i).resolved = true := by
        rw [hv2]; simp [Function.update_same]
      simp [resolveVote, hres2]

/-- State used to witness C7: goal 0 scored 55 (vote-eligible) with one
yes vote cast. -/
def c7Pre : LedgerState :=
  (runOps (initState 1 0)
    [Op.createGoal 2 (10 ^ 16) 0 10 0 "g", Op.setAIScore 1 0 0 55 none true,
     Op.vote 16 0 true]).1

/-- C7, witness: the vote-resolution rule evaluated on the concrete
goal with one yes vote and no no votes. -/
theorem C7_resolve_vote_rule_witness :
    ∃ s' es, resolveVote c7Pre 0 none true = some (s', es)
      ∧ (s'.votes 0).resolved = true
      ∧ (s'.votes 0).passed = decide ((c7Pre.votes 0).noVotes < (c7Pre.votes 0).yesVotes)
      ∧ ((c7Pre.votes 0).noVotes < (c7Pre.votes 0).yesVotes →
          (s'.goals 0).status = 1
          ∧ ∃ es2, onGoalCompleted { c7Pre with votes := Function.update c7Pre.votes 0 ({ c7Pre.votes 0 with resolved := true, passed := decide ((c7Pre.votes 0).noVotes < (c7Pre.votes 0).yesVotes) }), goals := Function.update c7Pre.goals 0 ({ c7Pre.goals 0 with status := 1 }) } 0 none = some (s', es2)
            ∧ es = es2 ++ [Event.voteResolved 0 true (c7Pre.votes 0).yesVotes (c7Pre.votes 0).noVotes,
                           Event.goalResolved 0 1])
      ∧ (¬ (c7Pre.votes 0).noVotes < (c7Pre.votes 0).yesVotes →
          (s'.goals 0).status = 2
          ∧ ∃ es2, onGoalFailed { c7Pre with votes := Function.update c7Pre.votes 0 ({ c7Pre.votes 0 with resolved := true, passed := decide ((c7Pre.votes 0).noVotes < (c7Pre.votes 0).yesVotes) }), goals := Function.update c7Pre.goals 0 ({ c7Pre.goals 0 with status := 2 }) } 0 true = some (s', es2)
            ∧ es = es2 ++ [Event.voteResolved 0 false (c7Pre.votes 0).yesVotes (c7Pre.votes 0).noVotes,
                           Event.goalResolved 0 2])
      ∧ (∀ mintResult2 sendOk2, resolveVote s' 0 mintResult2 sendOk2 = none) :=
  C7_resolve_vote_rule c7Pre 0 none true (by decide) (by decide) (by decide)
    (by decide) (by decide)

/-- C8: any identity that is not the registered AI verifier has every
`setAIScore` and `verifyGoal` call revert, and the executed step leaves
the state unchanged and emits nothing — in particular the goal's score
stays unset and its status stays Active. -/
theorem C8_oracle_authorization (s : LedgerState) (sender : Addr)
    (hnot : sender ≠ s.aiVerifier) :
    (∀ now i score mintResult sendOk,
        setAIScore s sender now i score mintResult sendOk = none
        ∧ step s (Op.setAIScore sender now i score mintResult sendOk) = (s, []))
    ∧ (∀ i result mintResult sendOk,
        verifyGoal s sender i result mintResult sendOk = none
        ∧ step s (Op.verifyGoal sender i result mintResult sendOk) = (s, [])) := by
  constructor
  · intro now i score mintResult sendOk
    have hnone : setAIScore s sender now i score mintResult sendOk = none := by
      simp [setAIScore, hnot]
    exact ⟨hnone, by simp [step, applyOp, hnone]⟩
  · intro i result mintResult sendOk
    have hnone : verifyGoal s sender i result mintResult sendOk = none := by
      simp [verifyGoal, hnot]
    exact ⟨hnone, by simp [step, applyOp, hnone]⟩

/-- State used to witness C8: one Active goal, oracle identity 1. -/
def c8Pre : LedgerState :=
  (runOps (initState 1 0) [Op.createGoal 2 (10 ^ 16) 0 10 0 "g"]).1

/-- C8, witness: the authorization guarantee evaluated for the goal
owner (identity 2), who is not the oracle. -/
theorem C8_oracle_authorization_witness :
    (∀ now i score mintResult sendOk,
        setAIScore c8Pre 2 now i score mintResult sendOk = none
        ∧ step c8Pre (Op.setAIScore 2 now i score mintResult sendOk) = (c8Pre, []))
    ∧ (∀ i result mintResult sendOk,
        verifyGoal c8Pre 2 i result mintResult sendOk = none
        ∧ step c8Pre (Op.verifyGoal 2 i result mintResult sendOk) = (c8Pre, [])) :=
  C8_oracle_authorization c8Pre 2 (by decide)

theorem onGoalFailed_streaks {s : LedgerState} {i : Nat} {sendOk : Bool}
    {s2 : LedgerState} {es : List Event}
    (h : onGoalFailed s i sendOk = some (s2, es)) :
    s2.userStreaks = Function.update s.userStreaks ((s.goals i).user) 0 := by
  simp only [onGoalFailed] at h
  repeat split at h
  all_goals try exact Option.noConfusion h
  all_goals simp only [Option.some.injEq, Prod.mk.injEq] at h
  all_goals rcases h with ⟨rfl, rfl⟩
  all_goals rfl

theorem onGoalFailed_donation (s : LedgerState) (i : Nat)
    (hc : s.charityAddress ≠ 0) (hstk : 0 < (s.goals i).stakeAmount)
    (hmul : (s.goals i).stakeAmount * s.charityBasisPoints < U256)
    (ha : 0 < (s.goals i).stakeAmount * s.charityBasisPoints / 10000) :
    onGoalFailed s i true
      = some ({ s with userStreaks := Function.update s.userStreaks ((s.goals i).user) 0 },
          [Event.charityDonation i s.charityAddress
            ((s.goals i).stakeAmount * s.charityBasisPoints / 10000)]) := by
  simp only [onGoalFailed]
  rw [if_pos ⟨hc, hstk⟩, if_pos hmul, if_pos ha]
  simp

/-- C10: `resolveVote` enforces no vote-eligibility precondition: it
succeeds on any Active goal with an unresolved vote — in particular on
a goal with zero votes cast that the oracle never scored — called by
any identity, transitions the goal to Failed (since `0 > 0` is false),
resets the owner's streak to 0, and (when a charity is configured, the
stake is nonzero, the computed share is nonzero and the transfer
succeeds) pays the beneficiary share out of the stake. -/
theorem C10_resolve_without_eligibility (s : LedgerState) (i : Nat)
    (mintResult : Option Nat) (sendOk : Bool)
    (hlt : i < s.goalCounter)
    (hnres : (s.votes i).resolved = false)
    (hactive : (s.goals i).status = 0)
    (hzero : (s.votes i).yesVotes = 0 ∧ (s.votes i).noVotes = 0)
    (hmul : (s.goals i).stakeAmount * s.charityBasisPoints < U256) :
    ∃ s' es, resolveVote s i mintResult sendOk = some (s', es)
      ∧ (s'.goals i).status = 2
      ∧ s'.userStreaks ((s.goals i).user) = 0
      ∧ (s.charityAddress ≠ 0 → 0 < (s.goals i).stakeAmount →
          0 < (s.goals i).stakeAmount * s.charityBasisPoints / 10000 → sendOk = true →
          Event.charityDonation i s.charityAddress
            ((s.goals i).stakeAmount * s.charityBasisPoints / 10000) ∈ es) := by
  have hp : ¬ (s.votes i).noVotes < (s.votes i).yesVotes := by
    rcases hzero with ⟨h1, h2⟩
    omega
  obtain ⟨s2, es2, hof⟩ := onGoalFailed_succeeds { s with votes := Function.update s.votes i ({ s.votes i with resolved := true, passed := decide ((s.votes i).noVotes < (s.votes i).yesVotes) }), goals := Function.update s.goals i ({ s.goals i with status := 2 }) } i sendOk (by simpa using hmul)
  have hres : resolveVote s i mintResult sendOk
      = some (s2, es2 ++ [Event.voteResolved i false (s.votes i).yesVotes (s.votes i).noVotes,
                          Event.goalResolved i 2]) := by
    simp only [resolveVote, if_pos hlt]
    rw [if_neg (by simp [hnres]), if_pos hactive, if_neg hp, hof]
    rfl
  obtain ⟨hg, -, -, -, -, -⟩ := onGoalFailed_some hof
  have hstreaks := onGoalFailed_streaks hof
  refine ⟨s2, _, hres, ?_, ?_, ?_⟩
  · rw [hg]
    simp [Function.update_same]
  · have hx : (Function.update s.goals i ({ s.goals i with status := 2 }) i).user
        = (s.goals i).user := by
      rw [Function.update_same]
    dsimp only at hstreaks
    rw [hx] at hstreaks
    rw [hstreaks, Function.update_same]
  · intro hc hstk ha hsend
    subst hsend
    have hdon := onGoalFailed_donation { s with votes := Function.update s.votes i ({ s.votes i with resolved := true, passed := decide ((s.votes i).noVotes < (s.votes i).yesVotes) }), goals := Function.update s.goals i ({ s.goals i with status := 2 }) } i (by simpa using hc) (by simpa [Function.update_same] using hstk) (by simpa using hmul) (by simpa [Function.update_same] using ha)
    rw [hof] at hdon
    simp only [Option.some.injEq, Prod.mk.injEq] at hdon
    rcases hdon with ⟨-, hes⟩
    rw [hes]
    simp [Function.update_same]

/-- State used to witness C10: a freshly created Active goal with a
configured charity and no votes cast. -/
def c10Pre : LedgerState :=
  (runOps (initState 1 0)
    [Op.setCharityAddress 1 3, Op.createGoal 2 (10 ^ 16) 0 10 0 "g"]).1

/-- C10, witness: `resolveVote` by an arbitrary identity on the fresh
unscored goal: it fails the goal, resets the streak, and donates the
charity share. -/
theorem C10_resolve_without_eligibility_witness :
    ∃ s' es, resolveVote c10Pre 0 none true = some (s', es)
      ∧ (s'.goals 0).status = 2
      ∧ s'.userStreaks ((c10Pre.goals 0).user) = 0
      ∧ (c10Pre.charityAddress ≠ 0 → 0 < (c10Pre.goals 0).stakeAmount →
          0 < (c10Pre.goals 0).stakeAmount * c10Pre.charityBasisPoints / 10000 →
          true = true →
          Event.charityDonation 0 c10Pre.charityAddress
            ((c10Pre.goals 0).stakeAmount * c10Pre.charityBasisPoints / 10000) ∈ es) :=
  C10_resolve_without_eligibility c10Pre 0 none true (by decide) (by decide)
    (by decide) (by decide) (by decide)

/-- Solidity `struct BadgeMetadata` of `GoalBadgeNFT.sol`. -/
structure BadgeMetadata where
  goalId : Nat
  category : Nat
  completedAt : Nat
  streak : Nat
deriving Repr, DecidableEq

/-- The all-zero metadata record of an unset mapping key. -/
def defaultBadgeMetadata : BadgeMetadata :=
  { goalId := 0, category := 0, completedAt := 0, streak := 0 }

/-- Storage of `GoalBadgeNFT.sol`, including the inherited OpenZeppelin
ERC721 v5 state it builds on: token owners, balances, token and
operator approvals. -/
structure BadgeState where
  tokenCounter : Nat
  owners : Nat → Addr
  balances : Addr → Nat
  tokenApprovals : Nat → Addr
  operatorApprovals : Addr → Addr → Bool
  badgeMetadata : Nat → BadgeMetadata
  userBadgeCount : Addr → Nat
  categoryBadgeCount : Addr → Nat → Nat
  stakeContract : Addr
  owner : Addr

/-- The post-constructor badge state: counters zero, no badges, the
stake contract reference set from the constructor argument. -/
def initBadgeState (deployer stakeAddr : Addr) : BadgeState :=
  { tokenCounter := 0, owners := fun _ => 0, balances := fun _ => 0,
    tokenApprovals := fun _ => 0, operatorApprovals := fun _ _ => false,
    badgeMetadata := fun _ => defaultBadgeMetadata,
    userBadgeCount := fun _ => 0, categoryBadgeCount := fun _ _ => 0,
    stakeContract := stakeAddr, owner := deployer }

/-- Function `_isAuthorized` of the imported OpenZeppelin ERC721 v5: the spender
is nonzero and is the holder, an approved operator, or the approved
address of the token. -/
def erc721IsAuthorized (s : BadgeState) (holder spender : Addr) (tokenId : Nat) : Prop :=
  spender ≠ 0 ∧ (holder = spender ∨ s.operatorApprovals holder spender = true
    ∨ s.tokenApprovals tokenId = spender)

instance (s : BadgeState) (holder spender : Addr) (tokenId : Nat) :
    Decidable (erc721IsAuthorized s holder spender tokenId) := by
  unfold erc721IsAuthorized
  infer_instance

/-- Function `_update` of `GoalBadgeNFT.sol`: the soulbound require (the previous
holder or the receiver must be the zero address) followed by
`super._update` of OpenZeppelin ERC721 v5 (authorization check, approval
clearing, unchecked balance moves, owner write).  Returns the previous
holder. -/
def badgeUpdate (s : BadgeState) (toAddr tokenId auth : Addr) : Option (BadgeState × Addr) :=
  let holder := s.owners tokenId
  if holder ≠ 0 ∧ toAddr ≠ 0 then none
  else
    if auth ≠ 0 ∧ ¬ erc721IsAuthorized s holder auth tokenId then none
    else
      let s1 : BadgeState :=
        if holder ≠ 0 then
          { s with tokenApprovals := Function.update s.tokenApprovals tokenId 0,
                   balances := Function.update s.balances holder (s.balances holder - 1) }
        else s
      let s2 : BadgeState :=
        if toAddr ≠ 0 then
          { s1 with balances := Function.update s1.balances toAddr (s1.balances toAddr + 1) }
        else s1
      some ({ s2 with owners := Function.update s2.owners tokenId toAddr }, holder)

/-- Entry point `mintBadge` of `GoalBadgeNFT.sol`: restricted to the stake contract;
allocates `tokenCounter++`, `_safeMint`s to the user (the receiver is
treated as an externally owned account, so no receiver hook runs),
stores the metadata and bumps both counters (checked increments). -/
def mintBadge (s : BadgeState) (sender user : Addr) (now goalId category streak : Nat) :
    Option (BadgeState × Nat) :=
  if sender = s.stakeContract then
    let tokenId := s.tokenCounter
    if s.tokenCounter + 1 < U256 then
      if user = 0 then none
      else
        match badgeUpdate s user tokenId 0 with
        | none => none
        | some (s1, prev) =>
          if prev ≠ 0 then none
          else
            if s1.userBadgeCount user + 1 < U256
                ∧ s1.categoryBadgeCount user category + 1 < U256 then
              some ({ s1 with
                        tokenCounter := tokenId + 1,
                        badgeMetadata := Function.update s1.badgeMetadata tokenId
                          { goalId := goalId, category := category,
                            completedAt := now % U64, streak := streak },
                        userBadgeCount := Function.update s1.userBadgeCount user
                          (s1.userBadgeCount user + 1),
                        categoryBadgeCount := Function.update s1.categoryBadgeCount user
                          (Function.update (s1.categoryBadgeCount user) category
                            (s1.categoryBadgeCount user category + 1)) },
                    tokenId)
            else none
    else none
  else none

/-- Entry point `burn` of `GoalBadgeNFT.sol`: caller must be the current holder
(`ownerOf` reverts on a nonexistent token), both counters are
decremented (checked), then `_burn` runs `_update` to the zero address. -/
def burn (s : BadgeState) (sender : Addr) (tokenId : Nat) : Option BadgeState :=
  if s.owners tokenId = 0 then none
  else if s.owners tokenId = sender then
    let category := (s.badgeMetadata tokenId).category
    if 0 < s.userBadgeCount sender ∧ 0 < s.categoryBadgeCount sender category then
      let s1 : BadgeState :=
        { s with userBadgeCount := Function.update s.userBadgeCount sender
                   (s.userBadgeCount sender - 1),
                 categoryBadgeCount := Function.update s.categoryBadgeCount sender
                   (Function.update (s.categoryBadgeCount sender) category
                     (s.categoryBadgeCount sender category - 1)) }
      match badgeUpdate s1 0 tokenId 0 with
      | none => none
      | some (s2, prev) => if prev = 0 then none else some s2
    else none
  else none

/-- Entry point `transferFrom` of the inherited OpenZeppelin ERC721 v5 (and
`safeTransferFrom`, whose state effect is identical for an externally
owned receiver): rejects the zero receiver, runs `_update` with the
caller as auth, and requires the previous holder to match `frm`. -/
def transferFrom (s : BadgeState) (sender frm toAddr : Addr) (tokenId : Nat) :
    Option BadgeState :=
  if toAddr = 0 then none
  else
    match badgeUpdate s toAddr tokenId sender with
    | none => none
    | some (s1, prev) => if prev ≠ frm then none else some s1

/-- Entry point `approve` of the inherited OpenZeppelin ERC721 v5: requires an owned
token and an authorized caller, then records the approval. -/
def approve (s : BadgeState) (sender toAddr : Addr) (tokenId : Nat) : Option BadgeState :=
  if s.owners tokenId = 0 then none
  else
    let holder := s.owners tokenId
    if sender ≠ 0 ∧ holder ≠ sender ∧ s.operatorApprovals holder sender = false then none
    else some { s with tokenApprovals := Function.update s.tokenApprovals tokenId toAddr }

/-- Entry point `setApprovalForAll` of the inherited OpenZeppelin ERC721 v5. -/
def setApprovalForAll (s : BadgeState) (sender op : Addr) (approved : Bool) :
    Option BadgeState :=
  if op = 0 then none
  else
    let inner := Function.update (s.operatorApprovals sender) op approved
    some { s with operatorApprovals := Function.update s.operatorApprovals sender inner }

/-- Admin `setStakeContract` of `GoalBadgeNFT.sol`, owner-only. -/
def setStakeContract (s : BadgeState) (sender a : Addr) : Option BadgeState :=
  if sender = s.owner then some { s with stakeContract := a } else none

/-- One external call to the badge contract. -/
inductive BadgeOp where
  | mintBadge (sender user : Addr) (now goalId category streak : Nat)
  | burn (sender : Addr) (tokenId : Nat)
  | transferFrom (sender frm toAddr : Addr) (tokenId : Nat)
  | approve (sender toAddr : Addr) (tokenId : Nat)
  | setApprovalForAll (sender op : Addr) (approved : Bool)
  | setStakeContract (sender a : Addr)
deriving Repr, DecidableEq

/-- Dispatch one badge call; the second component is the freshly minted
token id when the call was a successful `mintBadge`. -/
def applyBadgeOp (s : BadgeState) : BadgeOp → Option (BadgeState × Option Nat)
  | .mintBadge sender user now goalId category streak =>
      (mintBadge s sender user now goalId category streak).map (fun p => (p.1, some p.2))
  | .burn sender tokenId => (burn s sender tokenId).map (fun s' => (s', none))
  | .transferFrom sender frm toAddr tokenId =>
      (transferFrom s sender frm toAddr tokenId).map (fun s' => (s', none))
  | .approve sender toAddr tokenId => (approve s sender toAddr tokenId).map (fun s' => (s', none))
  | .setApprovalForAll sender op approved =>
      (setApprovalForAll s sender op approved).map (fun s' => (s', none))
  | .setStakeContract sender a => (setStakeContract s sender a).map (fun s' => (s', none))

/-- Execute one badge call; a reverted call leaves the state unchanged. -/
def stepBadge (s : BadgeState) (op : BadgeOp) : BadgeState × Option Nat :=
  match applyBadgeOp s op with
  | some r => r
  | none => (s, none)

/-- Execute a sequence of badge calls, collecting the minted token ids. -/
def runBadge (s : BadgeState) : List BadgeOp → BadgeState × List Nat
  | [] => (s, [])
  | op :: rest =>
      let r := stepBadge s op
      let r2 := runBadge r.1 rest
      (r2.1, (match r.2 with | some t => [t] | none => []) ++ r2.2)

theorem badgeUpdate_counter {s : BadgeState} {toAddr tokenId auth : Addr}
    {s2 : BadgeState} {prev : Addr}
    (h : badgeUpdate s toAddr tokenId auth = some (s2, prev)) :
    s2.tokenCounter = s.tokenCounter := by
  simp only [badgeUpdate] at h
  repeat' split at h
  all_goals try exact Option.noConfusion h
  all_goals simp only [Option.some.injEq, Prod.mk.injEq] at h
  all_goals rcases h with ⟨rfl, rfl⟩
  all_goals rfl

theorem applyBadgeOp_counter {s s' : BadgeState} {mid : Option Nat} {op : BadgeOp}
    (h : applyBadgeOp s op = some (s', mid)) :
    s.tokenCounter ≤ s'.tokenCounter
    ∧ (∀ t, mid = some t → t = s.tokenCounter ∧ s'.tokenCounter = s.tokenCounter + 1) := by
  cases op with
  | mintBadge sender user now goalId category streak =>
      simp only [applyBadgeOp, mintBadge, Option.map_eq_some'] at h
      obtain ⟨⟨s1, tid⟩, hm, hfe⟩ := h
      simp only [Prod.mk.injEq] at hfe
      obtain ⟨rfl, rfl⟩ := hfe
      repeat' split at hm
      all_goals try exact Option.noConfusion hm
      rename_i hsc hcnt huser s1x hbu prev hupd hprev hguard
      simp only [Option.some.injEq, Prod.mk.injEq] at hm
      rcases hm with ⟨rfl, rfl⟩
      have hc := badgeUpdate_counter hupd
      constructor
      · show s.tokenCounter ≤ s.tokenCounter + 1
        omega
      · intro t ht
        simp only [Option.some.injEq] at ht
        subst ht
        exact ⟨rfl, rfl⟩
  | burn sender tokenId =>
      simp only [applyBadgeOp, burn, Option.map_eq_some'] at h
      obtain ⟨s1, hb, hfe⟩ := h
      simp only [Prod.mk.injEq] at hfe
      obtain ⟨rfl, rfl⟩ := hfe
      repeat' split at hb
      all_goals try exact Option.noConfusion hb
      rename_i hown hsender hguard s1x prev hupd hprev
      simp only [Option.some.injEq] at hb
      subst hb
      have hc := badgeUpdate_counter hupd
      refine ⟨by rw [hc], fun t ht => Option.noConfusion ht⟩
  | transferFrom sender frm toAddr tokenId =>
      simp only [applyBadgeOp, transferFrom, Option.map_eq_some'] at h
      obtain ⟨s1, hb, hfe⟩ := h
      simp only [Prod.mk.injEq] at hfe
      obtain ⟨rfl, rfl⟩ := hfe
      repeat' split at hb
      all_goals try exact Option.noConfusion hb
      rename_i hto s1x prev hupd hprev
      simp only [Option.some.injEq] at hb
      subst hb
      have hc := badgeUpdate_counter hupd
      refine ⟨by rw [hc], fun t ht => Option.noConfusion ht⟩
  | approve sender toAddr tokenId =>
      simp only [applyBadgeOp, approve, Option.map_eq_some'] at h
      obtain ⟨s1, hb, hfe⟩ := h
      simp only [Prod.mk.injEq] at hfe
      obtain ⟨rfl, rfl⟩ := hfe
      repeat' split at hb
      all_goals try exact Option.noConfusion hb
      all_goals simp only [Option.some.injEq] at hb
      all_goals subst hb
      all_goals exact ⟨le_refl _, fun t ht => Option.noConfusion ht⟩
  | setApprovalForAll sender op approved =>
      simp only [applyBadgeOp, setApprovalForAll, Option.map_eq_some'] at h
      obtain ⟨s1, hb, hfe⟩ := h
      simp only [Prod.mk.injEq] at hfe
      obtain ⟨rfl, rfl⟩ := hfe
      repeat' split at hb
      all_goals try exact Option.noConfusion hb
      all_goals simp only [Option.some.injEq] at hb
      all_goals subst hb
      all_goals exact ⟨le_refl _, fun t ht => Option.noConfusion ht⟩
  | setStakeContract sender a =>
      simp only [applyBadgeOp, setStakeContract, Option.map_eq_some'] at h
      obtain ⟨s1, hb, hfe⟩ := h
      simp only [Prod.mk.injEq] at hfe
      obtain ⟨rfl, rfl⟩ := hfe
      repeat' split at hb
      all_goals try exact Option.noConfusion hb
      all_goals simp only [Option.some.injEq] at hb
      all_goals subst hb
      all_goals exact ⟨le_refl _, fun t ht => Option.noConfusion ht⟩

theorem stepBadge_counter (s : BadgeState) (op : BadgeOp) :
    s.tokenCounter ≤ (stepBadge s op).1.tokenCounter
    ∧ (∀ t, (stepBadge s op).2 = some t →
        t = s.tokenCounter ∧ (stepBadge s op).1.tokenCounter = s.tokenCounter + 1) := by
  unfold stepBadge
  cases h : applyBadgeOp s op with
  | none => exact ⟨le_refl _, fun t ht => Option.noConfusion ht⟩
  | some r =>
      rcases r with ⟨s', mid⟩
      exact applyBadgeOp_counter h

theorem runBadge_minted_increasing (ops : List BadgeOp) :
    ∀ s : BadgeState,
      (∀ m ∈ (runBadge s ops).2, s.tokenCounter ≤ m)
      ∧ List.Pairwise (fun a b => a < b) (runBadge s ops).2 := by
  induction ops with
  | nil => intro s; simp [runBadge]
  | cons op rest ih =>
      intro s
      simp only [runBadge]
      obtain ⟨hmono, hmint⟩ := stepBadge_counter s op
      obtain ⟨hbound, hpair⟩ := ih (stepBadge s op).1
      cases hmid : (stepBadge s op).2 with
      | none =>
          simp only [hmid, List.nil_append]
          refine ⟨fun m hm => le_trans hmono (hbound m hm), hpair⟩
      | some t =>
          obtain ⟨rfl, hcnt⟩ := hmint t hmid
          simp only [hmid, List.singleton_append]
          constructor
          · intro m hm
            rcases List.mem_cons.mp hm with rfl | hm2
            · exact le_refl _
            · exact le_trans hmono (hbound m hm2)
          · refine List.Pairwise.cons ?_ hpair
            intro b hb
            have := hbound b hb
            omega

/-- C9: badges are soulbound.  (1) Any transfer of a badge that has a
nonzero holder fails — so no badge ever moves between two nonzero
identities; (2) a transfer by a nonzero caller also fails on holderless
tokens whenever the zero address has no stale approvals (as in every
state the contract can reach), so `mintBadge` and `burn` are the only
operations that change badge balances — `approve`, `setApprovalForAll`
and `setStakeContract` provably leave owners and balances untouched;
(3) minted token ids are strictly increasing along every call sequence,
so a burned badge id can never be minted again. -/
theorem C9_badge_soulbound :
    (∀ (s : BadgeState) (sender frm toAddr : Addr) (tokenId : Nat),
        s.owners tokenId ≠ 0 → transferFrom s sender frm toAddr tokenId = none)
    ∧ (∀ (s : BadgeState) (sender frm toAddr : Addr) (tokenId : Nat),
        sender ≠ 0 → (∀ x, s.operatorApprovals 0 x = false) →
        (∀ tid, s.owners tid = 0 → s.tokenApprovals tid = 0) →
        transferFrom s sender frm toAddr tokenId = none)
    ∧ (∀ (s s' : BadgeState) (sender toAddr : Addr) (tokenId : Nat),
        approve s sender toAddr tokenId = some s' →
        s'.balances = s.balances ∧ s'.userBadgeCount = s.userBadgeCount
          ∧ s'.owners = s.owners)
    ∧ (∀ (s s' : BadgeState) (sender op : Addr) (approved : Bool),
        setApprovalForAll s sender op approved = some s' →
        s'.balances = s.balances ∧ s'.userBadgeCount = s.userBadgeCount
          ∧ s'.owners = s.owners)
    ∧ (∀ (s s' : BadgeState) (sender a : Addr),
        setStakeContract s sender a = some s' →
        s'.balances = s.balances ∧ s'.userBadgeCount = s.userBadgeCount
          ∧ s'.owners = s.owners)
    ∧ (∀ (s : BadgeState) (ops : List BadgeOp),
        List.Pairwise (fun a b => a < b) (runBadge s ops).2) := by
  refine ⟨?_, ?_, ?_, ?_, ?_, ?_⟩
  · intro s sender frm toAddr tokenId h
    simp only [transferFrom]
    by_cases ht : toAddr = 0
    · rw [if_pos ht]
    · rw [if_neg ht]
      have hbu : badgeUpdate s toAddr tokenId sender = none := by
        simp only [badgeUpdate]
        rw [if_pos ⟨h, ht⟩]
      rw [hbu]
  · intro s sender frm toAddr tokenId hsender hopz htapp
    by_cases h : s.owners tokenId ≠ 0
    · simp only [transferFrom]
      by_cases ht : toAddr = 0
      · rw [if_pos ht]
      · rw [if_neg ht]
        have hbu : badgeUpdate s toAddr tokenId sender = none := by
          simp only [badgeUpdate]
          rw [if_pos ⟨h, ht⟩]
        rw [hbu]
    · push_neg at h
      simp only [transferFrom]
      by_cases ht : toAddr = 0
      · rw [if_pos ht]
      · rw [if_neg ht]
        have hnauth : ¬ erc721IsAuthorized s (s.owners tokenId) sender tokenId := by
          simp only [erc721IsAuthorized, h]
          rintro ⟨-, hzero | hop | happ⟩
          · exact hsender hzero.symm
          · rw [hopz sender] at hop
            exact Bool.noConfusion hop
          · rw [htapp tokenId h] at happ
            exact hsender happ.symm
        have hbu : badgeUpdate s toAddr tokenId sender = none := by
          simp only [badgeUpdate]
          rw [if_neg (by simp [h]), if_pos ⟨hsender, hnauth⟩]
        rw [hbu]
  · intro s s' sender toAddr tokenId h
    simp only [approve] at h
    repeat' split at h
    all_goals try exact Option.noConfusion h
    all_goals simp only [Option.some.injEq] at h
    all_goals subst h
    all_goals exact ⟨rfl, rfl, rfl⟩
  · intro s s' sender op approved h
    simp only [setApprovalForAll] at h
    repeat' split at h
    all_goals try exact Option.noConfusion h
    all_goals simp only [Option.some.injEq] at h
    all_goals subst h
    all_goals exact ⟨rfl, rfl, rfl⟩
  · intro s s' sender a h
    simp only [setStakeContract] at h
    repeat' split at h
    all_goals try exact Option.noConfusion h
    all_goals simp only [Option.some.injEq] at h
    all_goals subst h
    all_goals exact ⟨rfl, rfl, rfl⟩
  · intro s ops
    exact (runBadge_minted_increasing ops s).2

/-- Badge state used to witness C9: badge 0 minted to identity 2 by the
stake contract (identity 9). -/
def c9State : BadgeState :=
  (runBadge (initBadgeState 1 9) [BadgeOp.mintBadge 9 2 0 0 0 1]).1

/-- C9, witness: the soulbound guarantees evaluated on a concrete minted
badge and a concrete mint/burn/mint trace. -/
theorem C9_badge_soulbound_witness :
    transferFrom c9State 2 2 3 0 = none
    ∧ transferFrom c9State 3 2 3 1 = none
    ∧ List.Pairwise (fun a b => a < b)
        (runBadge (initBadgeState 1 9)
          [BadgeOp.mintBadge 9 2 0 0 0 1, BadgeOp.burn 2 0,
           BadgeOp.mintBadge 9 2 0 1 0 1]).2 :=
  ⟨C9_badge_soulbound.1 c9State 2 2 3 0 (by decide),
   C9_badge_soulbound.2.1 c9State 3 2 3 1 (by decide) (fun x => rfl)
     (fun tid _ => rfl),
   C9_badge_soulbound.2.2.2.2.2 (initBadgeState 1 9)
     [BadgeOp.mintBadge 9 2 0 0 0 1, BadgeOp.burn 2 0,
      BadgeOp.mintBadge 9 2 0 1 0 1]⟩

end StakeYourGoal
